import Mathlib

/-!
Verification development for the xylem identifier registry.

This file shallowly embeds the scope-stack context (`src/typemap_context.rs`)
and the `Id` conversion logic (`src/id.rs`) of the xylem repository.

Modelling conventions:
* `TypeId` is modelled as `Nat`; `TypeId::of::<()>()` is the fixed value `unitTid`.
* `usize` arithmetic wraps modulo `2^64` (the machine-integer convention used
  throughout this development); `u32` range checks (`try_into().expect(..)`)
  are modelled by explicit comparisons against `u32Max` leading to `.panicked`.
* `BTreeMap` is modelled by association lists with replace-on-insert; only
  keyed lookup and insertion are used by the source, never iteration order.
* Each `Layer` holds the slot families actually stored by `id.rs`:
  `IdCounter<X>` (per kind `X`), `CurrentId`, `ImportScope`, and
  `GlobalIdStore<S, X>` (per kind `X`).
* A Rust panic (`expect` or `panic!`) is modelled by the `Outcome.panicked`
  result resp. a `none` result for `end_scope`; `usize` arithmetic follows
  the release build (wrapping, no overflow panic). The `debug_assert_eq!`
  verifications of `end_scope` exist only in debug builds, so they are
  modelled twice: `endScope` models the debug build (a failed assertion is
  `none`), `endScopeRelease` the release build, where they compile out.
* The fuel-exhaustion of the ancestor walk (which loops forever in Rust if
  the `CurrentId` parent chain is cyclic) is modelled by `Outcome.diverged`.
-/

abbrev TypeId := Nat

/-- The `TypeId` of the unit type `()`, used for the root scope and as the key
of the global id store. -/
def unitTid : TypeId := 0

/-- Largest value of a `u32` (`u32::MAX`). -/
def u32Max : Nat := 4294967295

/-- Number of values of a `usize` (`2^64`). -/
def USIZE : Nat := 18446744073709551616

/-- Wrapping `usize` subtraction: `(a - b) mod 2^64`. -/
def usizeSub (a b : Nat) : Nat := (a + (USIZE - b % USIZE)) % USIZE

/-- Lookup in an association list (model of `BTreeMap::get` and of the lookup
part of `typemap` access). -/
def alistGet {κ α : Type} [DecidableEq κ] (key : κ) : List (κ × α) → Option α
  | [] => none
  | (k, v) :: rest => if k = key then some v else alistGet key rest

/-- Insert-or-replace in an association list (model of `BTreeMap::insert`). -/
def alistSet {κ α : Type} [DecidableEq κ] (key : κ) (val : α) : List (κ × α) → List (κ × α)
  | [] => [(key, val)]
  | (k, v) :: rest => if k = key then (k, val) :: rest else (k, v) :: alistSet key val rest

/-- Insert a default only when the key is absent (model of
`entry(..).or_insert_with(default)` / `or_default`). -/
def alistEnsure {κ α : Type} [DecidableEq κ] (key : κ) (d : α) (m : List (κ × α)) :
    List (κ × α) :=
  match alistGet key m with
  | some _ => m
  | none => alistSet key d m

/-- Position of the first occurrence of `x` (model of `Iterator::position`). -/
def listPos {α : Type} [DecidableEq α] (x : α) : List α → Option Nat
  | [] => none
  | a :: rest => if a = x then some 0 else (listPos x rest).map (· + 1)

/-- Model of the `CurrentId` record of `id.rs`: the most recent declaration of
a given kind, with its index, the `TypeId` of its scope kind, and the original
string. -/
structure CurrentId where
  id : Nat
  parent : TypeId
  string : String
deriving Repr, DecidableEq

/-- Model of the `ImportScope` slot of `id.rs`: maps a target kind to the
ancestor-index path under which its persisted ids are stored. -/
structure ImportScope where
  map : List (TypeId × List Nat)
deriving Repr, DecidableEq

/-- Model of `GlobalIdStore<S, X>` of `id.rs`: maps an ancestor-index path to
the ordered list of names declared under that path. -/
structure GlobalIdStore where
  ids : List (List Nat × List String)
deriving Repr, DecidableEq

/-- Model of one layer of `DefaultContext` (`typemap_context.rs`): its tag
`type_id` and its typemap, split into the slot families used by `id.rs`.
`counters` holds the `IdCounter<X>.names` list per kind `X`; `stores` holds
the `GlobalIdStore<S, X>` per kind `X`. -/
structure Layer where
  type_id : TypeId
  counters : List (TypeId × List String)
  currentId : Option CurrentId
  importScope : Option ImportScope
  stores : List (TypeId × GlobalIdStore)
deriving Repr, DecidableEq

/-- Fresh empty layer tagged `t`, as pushed by `start_scope`. -/
def mkLayer (t : TypeId) : Layer := ⟨t, [], none, none, []⟩

/-- Model of `DefaultContext`: the stack of layers, index 0 = bottom (root). -/
structure DefaultContext where
  layers : List Layer
deriving Repr, DecidableEq

/-- Model of the `Scope` handle returned by `start_scope`. -/
structure ScopeHandle where
  type_id : TypeId
  index : Nat
deriving Repr, DecidableEq

/-- The innermost (topmost) layer whose tag equals `scope`
(`layers.iter().rev().find(|layer| layer.type_id == scope)`). -/
def ctxFind (scope : TypeId) (layers : List Layer) : Option Layer :=
  layers.reverse.find? (fun l => l.type_id == scope)

/-- Model of `DefaultContext::get::<T>(scope)`: find the innermost layer
tagged `scope`, then read slot family `f` (the slot of type `T`) from that
layer only. -/
def ctxGet {α : Type} (f : Layer → Option α) (scope : TypeId) (ctx : DefaultContext) :
    Option α :=
  (ctxFind scope ctx.layers).bind f

/-- Model of `DefaultContext::nth_last_scope(n)`:
`self.layers.get(self.layers.len() - n - 1)`, with the two wrapping `usize`
subtractions made explicit. -/
def nth_last_scope (ctx : DefaultContext) (n : Nat) : Option TypeId :=
  (ctx.layers.get? (usizeSub (usizeSub ctx.layers.length n) 1)).map Layer.type_id

/-- Model of `DefaultContext::start_scope::<T>()`: push a fresh layer tagged
`t` and return the handle recording `t` and the pre-push stack depth. -/
def startScope (t : TypeId) (ctx : DefaultContext) : ScopeHandle × DefaultContext :=
  (⟨t, ctx.layers.length⟩, ⟨ctx.layers ++ [mkLayer t]⟩)

/-- Model of `DefaultContext::end_scope(scope)` in a debug build: pop the top
layer (`expect` on the empty stack, active in every build) and verify the
handle's tag against the popped layer and the handle's depth against the
remaining length (the two `debug_assert_eq!` lines, active only in debug
builds). A `none` result models the panic. -/
def endScope (h : ScopeHandle) (ctx : DefaultContext) : Option DefaultContext :=
  match ctx.layers.getLast? with
  | none => none
  | some l =>
    if h.type_id = l.type_id ∧ h.index = ctx.layers.length - 1 then
      some ⟨ctx.layers.dropLast⟩
    else none

/-- Model of `DefaultContext::end_scope(scope)` in a release build: the
`pop().expect(..)` remains (`none` on the empty stack), but the two
`debug_assert_eq!` verifications compile out, so the top layer is popped and
the call succeeds regardless of the handle's tag and depth. -/
def endScopeRelease (_h : ScopeHandle) (ctx : DefaultContext) : Option DefaultContext :=
  match ctx.layers.getLast? with
  | none => none
  | some _ => some ⟨ctx.layers.dropLast⟩

/-- Replace the first layer tagged `scope` by `f` of it; `none` when no layer
matches. Operates on an innermost-first list. -/
def modifyFirstMatch (scope : TypeId) (f : Layer → Layer) : List Layer → Option (List Layer)
  | [] => none
  | l :: rest =>
    if l.type_id = scope then some (f l :: rest)
    else (modifyFirstMatch scope f rest).map (l :: ·)

/-- Model of the layer-location part of `DefaultContext::get_mut`: mutate the
innermost layer tagged `scope` with `f`; `none` models the
"Attempt to fetch from scope which is not in the stack" panic. -/
def modifyInnermost (scope : TypeId) (f : Layer → Layer) (layers : List Layer) :
    Option (List Layer) :=
  (modifyFirstMatch scope f layers.reverse).map List.reverse

/-- Read the `CurrentId` slot visible for kind `t`
(`context.get::<CurrentId>(t)`). -/
def getCurrentId (layers : List Layer) (t : TypeId) : Option CurrentId :=
  (ctxFind t layers).bind Layer.currentId

/-- Model of the ancestor walk of `Id::convert_impl` under `track`: starting
at a kind, follow each `CurrentId` record's `parent` key, collecting the
`id` values in walk order, until no record is found. `fuel` bounds the walk;
exhaustion (`none`) corresponds to the Rust loop never terminating. -/
def walkChain (layers : List Layer) : Nat → TypeId → Option (List Nat)
  | 0, t =>
    match getCurrentId layers t with
    | none => some []
    | some _ => none
  | fuel + 1, t =>
    match getCurrentId layers t with
    | none => some []
    | some r => (walkChain layers fuel r.parent).map (fun rest => r.id :: rest)

/-- Model of the `get_each::<ImportScope>()` scan of `Id::convert_impl`:
walk layers innermost-first, skip layers without an `ImportScope` slot, and
return the path of the first `ImportScope` whose map contains `kindX`. -/
def findImportPath (kindX : TypeId) (layers : List Layer) : Option (List Nat) :=
  (layers.reverse.filterMap (fun l => l.importScope.bind (fun im => alistGet kindX im.map))).head?

/-- Model of `store.ids.entry(parent_ids).or_default().push(from)` for the
`GlobalIdStore<S, X>` slot of kind `kindX` inside a layer's `stores` family
(the store itself is created by `get_mut`'s `or_insert_with(Default)`). -/
def storeAppend (kindX : TypeId) (path : List Nat) (name : String)
    (stores : List (TypeId × GlobalIdStore)) : List (TypeId × GlobalIdStore) :=
  let st := (alistGet kindX stores).getD ⟨[]⟩
  alistSet kindX ⟨alistSet path (((alistGet path st.ids).getD []) ++ [name]) st.ids⟩ stores

/-- Model of the import-insertion loop of `Id::convert_impl`:
`for &imported in &args.import { import.map.insert(imported, vec![index]); }`. -/
def importInserts (index : Nat) (imports : List TypeId) (im : ImportScope) : ImportScope :=
  ⟨imports.foldl (fun m k => alistSet k [index] m) im.map⟩

/-- The data-driven errors produced by `Id::convert_impl`, one constructor per
distinct error message in `id.rs`. -/
inductive XError where
  /-- "Duplicate ID {name}". -/
  | duplicateId (name : String)
  /-- "Unknown ID {name}" (both the in-scope and the imported lookup). -/
  | unknownId (name : String)
  /-- "Attempted to import scope for {kind}, but it was not tracked before." -/
  | importNotTracked (kind : TypeId)
  /-- "Scope was successfully imported but the ID is not tracked." -/
  | importedIdNotTracked
  /-- "Use of ID before registering the first one." -/
  | useBeforeRegister
  /-- "Multiple new IDs defined for {kind} ({newIndex}, {existingIndex})". -/
  | multipleNewIds (kind : TypeId) (newIndex existingIndex : Nat)
deriving Repr, DecidableEq

/-- The spec's `UntrackedScope` error kind covers the two "not tracked"
messages of `id.rs`: the missing `GlobalIdStore` and the missing path entry. -/
def XError.isUntrackedScope : XError → Bool
  | .importNotTracked _ => true
  | .importedIdNotTracked => true
  | _ => false

/-- Result of one conversion: a handle value, a data error, a panic
(`expect` / failed range check), or divergence of the ancestor walk. -/
inductive Outcome where
  | ok (index : Nat)
  | err (e : XError)
  | panicked
  | diverged
deriving Repr, DecidableEq

/-- Model of `IdArgs` (`new`, `track`, `import`). -/
structure IdArgs where
  new : Bool
  track : Bool
  imports : List TypeId
deriving Repr, DecidableEq

/-- The tail of the resolution branch of `Id::convert_impl`: write the
requested imports into the `ImportScope` of the layer one below the top
(lazily creating the slot), then convert the index to `u32`. -/
def afterResolve (index : Nat) (args : IdArgs) (ctx : DefaultContext) :
    Outcome × DefaultContext :=
  match nth_last_scope ctx 1 with
  | none => (.panicked, ctx)
  | some w =>
    let f := fun l : Layer =>
      { l with importScope := some (importInserts index args.imports (l.importScope.getD ⟨[]⟩)) }
    match modifyInnermost w f ctx.layers with
    | none => (.panicked, ctx)
    | some layers2 =>
      if u32Max < index then (.panicked, ⟨layers2⟩)
      else (.ok index, ⟨layers2⟩)

/-- Model of `Id::<S, X>::convert_impl(from, context, args)`.
`kindX` is `TypeId::of::<X>()`, `scopeX` is `TypeId::of::<X::Scope>()`,
`name` is the source string.

Declaration (`args.new`): locate (lazily create) the `IdCounter<X>` slot in
the innermost layer tagged `scopeX`; fail on a duplicate name; append the
name (its index is the previous length); store the `CurrentId` in the
innermost layer tagged `kindX`, failing if one already exists; under
`args.track`, walk the ancestor records from `scopeX`, reverse the collected
indices, and append the name to the global store at that path.

Resolution (`!args.new`): look the name up in the visible `IdCounter<X>`;
otherwise scan `ImportScope` slots for a path for `kindX` and look the name
up in the global store entry at that path; then record the requested imports
one layer below the top. -/
def convert_impl (kindX scopeX : TypeId) (name : String) (args : IdArgs)
    (ctx : DefaultContext) : Outcome × DefaultContext :=
  if args.new then
    match ctxFind scopeX ctx.layers with
    | none => (.panicked, ctx)
    | some lp =>
      let names := (alistGet kindX lp.counters).getD []
      let layers1 := (modifyInnermost scopeX
        (fun l => { l with counters := alistEnsure kindX [] l.counters }) ctx.layers).getD
        ctx.layers
      if name ∈ names then
        (.err (.duplicateId name), ⟨layers1⟩)
      else if u32Max < names.length then
        (.panicked, ⟨layers1⟩)
      else
        let index := names.length
        let layers2 := (modifyInnermost scopeX
          (fun l => { l with counters := alistSet kindX (names ++ [name]) l.counters })
          ctx.layers).getD ctx.layers
        match ctxFind kindX layers2 with
        | none => (.panicked, ⟨layers2⟩)
        | some lk =>
          match lk.currentId with
          | some cur => (.err (.multipleNewIds kindX index cur.id), ⟨layers2⟩)
          | none =>
            let layers3 := (modifyInnermost kindX
              (fun l => { l with currentId := some ⟨index, scopeX, name⟩ }) layers2).getD
              layers2
            if args.track then
              match walkChain layers3 (layers3.length + 1) scopeX with
              | none => (.diverged, ⟨layers3⟩)
              | some collected =>
                let g := fun l : Layer =>
                  { l with stores := storeAppend kindX collected.reverse name l.stores }
                match modifyInnermost unitTid g layers3 with
                | none => (.panicked, ⟨layers3⟩)
                | some layers4 => (.ok index, ⟨layers4⟩)
            else (.ok index, ⟨layers3⟩)
  else
    match (ctxFind scopeX ctx.layers).bind (fun l => alistGet kindX l.counters) with
    | some names =>
      match listPos name names with
      | none => (.err (.unknownId name), ctx)
      | some index => afterResolve index args ctx
    | none =>
      match findImportPath kindX ctx.layers with
      | none => (.err .useBeforeRegister, ctx)
      | some path =>
        match (ctxFind unitTid ctx.layers).bind (fun l => alistGet kindX l.stores) with
        | none => (.err (.importNotTracked kindX), ctx)
        | some st =>
          match alistGet path st.ids with
          | none => (.err .importedIdNotTracked, ctx)
          | some ids =>
            match listPos name ids with
            | none => (.err (.unknownId name), ctx)
            | some index => afterResolve index args ctx

/-- Model of `Xylem::convert` for an `Id<S, X>` field: push a layer tagged by
the field's own type (`fieldTid` models `TypeId::of::<Id<S, X>>()`), run
`convert_impl`, and pop the layer again on success (on an error the layer
stays, as the `?` operator returns before `end_scope`). -/
def fieldConvert (fieldTid kindX scopeX : TypeId) (name : String) (args : IdArgs)
    (ctx : DefaultContext) : Outcome × DefaultContext :=
  let s := startScope fieldTid ctx
  match convert_impl kindX scopeX name args s.2 with
  | (.ok i, c2) =>
    match endScope s.1 c2 with
    | some c3 => (.ok i, c3)
    | none => (.panicked, c2)
  | r => r

/-- Conversion of one object of kind `kindX` whose only field is a declaring
(`new = true`) id: the object's own layer is pushed, the id field is
converted, and the object's layer is popped again. -/
def declareOne (kindX scopeX fieldTid : TypeId) (track : Bool) (name : String)
    (ctx : DefaultContext) : Outcome × DefaultContext :=
  let s := startScope kindX ctx
  match fieldConvert fieldTid kindX scopeX name ⟨true, track, []⟩ s.2 with
  | (.ok i, c2) =>
    match endScope s.1 c2 with
    | some c3 => (.ok i, c3)
    | none => (.panicked, c2)
  | r => r

/-- Declare a sequence of names of the same kind, each on its own object
instance, inside the same enclosing scope; stop at the first failure. -/
def declareSeq (kindX scopeX fieldTid : TypeId) :
    List String → DefaultContext → Option (List Nat × DefaultContext)
  | [], ctx => some ([], ctx)
  | n :: ns, ctx =>
    match declareOne kindX scopeX fieldTid false n ctx with
    | (.ok i, ctx2) => (declareSeq kindX scopeX fieldTid ns ctx2).map (fun p => (i :: p.1, p.2))
    | _ => none

/-- A context with the root layer and one additional active scope layer
tagged `p`, the setting of a single open declaration scope. -/
def initCtx (p : TypeId) : DefaultContext := ⟨[mkLayer unitTid, mkLayer p]⟩

/-! ### Association list lemmas -/

theorem alistGet_alistSet_self {κ α : Type} [DecidableEq κ] (key : κ) (v : α)
    (m : List (κ × α)) : alistGet key (alistSet key v m) = some v := by
  induction m with
  | nil => simp [alistGet, alistSet]
  | cons kv rest ih =>
    obtain ⟨k, w⟩ := kv
    by_cases h : k = key
    · subst h
      simp [alistGet, alistSet]
    · simp [alistGet, alistSet, h, ih]

theorem alistGet_alistSet_ne {κ α : Type} [DecidableEq κ] (k key : κ) (v : α)
    (m : List (κ × α)) (h : k ≠ key) :
    alistGet k (alistSet key v m) = alistGet k m := by
  have hks : key ≠ k := Ne.symm h
  induction m with
  | nil => simp [alistGet, alistSet, hks]
  | cons kv rest ih =>
    obtain ⟨k2, w⟩ := kv
    by_cases h2 : k2 = key
    · subst h2
      simp [alistGet, alistSet, hks]
    · simp [alistGet, alistSet, h2, ih]

theorem alistSet_alistSet {κ α : Type} [DecidableEq κ] (key : κ) (v w : α)
    (m : List (κ × α)) : alistSet key v (alistSet key w m) = alistSet key v m := by
  induction m with
  | nil => simp [alistSet]
  | cons kv rest ih =>
    obtain ⟨k, u⟩ := kv
    by_cases h : k = key
    · subst h
      simp [alistSet]
    · simp [alistSet, h, ih]

theorem alistEnsure_of_get_eq_some {κ α : Type} [DecidableEq κ] (key : κ) (d v : α)
    (m : List (κ × α)) (h : alistGet key m = some v) : alistEnsure key d m = m := by
  simp [alistEnsure, h]

theorem alistSet_alistEnsure {κ α : Type} [DecidableEq κ] (key : κ) (d v : α)
    (m : List (κ × α)) : alistSet key v (alistEnsure key d m) = alistSet key v m := by
  unfold alistEnsure
  cases h : alistGet key m with
  | none => simp [alistSet_alistSet]
  | some w => simp

/-! ### listPos lemmas -/

theorem listPos_get_of_nodup {α : Type} [DecidableEq α] (l : List α) (i : Nat)
    (hi : i < l.length) (hnd : l.Nodup) : listPos (l.get ⟨i, hi⟩) l = some i := by
  induction l generalizing i with
  | nil => exact absurd hi (by simp)
  | cons a rest ih =>
    cases i with
    | zero => simp [listPos]
    | succ j =>
      have hj : j < rest.length := by simpa using hi
      have hna : a ∉ rest := (List.nodup_cons.mp hnd).1
      have hne : ¬ (a = rest.get ⟨j, hj⟩) := fun h => hna (h ▸ rest.get_mem j hj)
      have ihj := ih j hj (List.nodup_cons.mp hnd).2
      have hg : (a :: rest).get ⟨j + 1, hi⟩ = rest.get ⟨j, hj⟩ := rfl
      rw [hg]
      show (if a = rest.get ⟨j, hj⟩ then some 0 else (listPos (rest.get ⟨j, hj⟩) rest).map (· + 1)) = some (j + 1)
      rw [if_neg hne, ihj]
      rfl

theorem listPos_lt_length {α : Type} [DecidableEq α] (x : α) (l : List α) (i : Nat)
    (h : listPos x l = some i) : i < l.length := by
  induction l generalizing i with
  | nil => simp [listPos] at h
  | cons a rest ih =>
    by_cases ha : a = x
    · rw [show listPos x (a :: rest) = some 0 by rw [listPos, if_pos ha]] at h
      simp at h
      simp only [List.length_cons]
      omega
    · rw [show listPos x (a :: rest) = (listPos x rest).map (· + 1) by rw [listPos, if_neg ha]] at h
      cases hp : listPos x rest with
      | none =>
        rw [hp] at h
        simp at h
      | some j =>
        rw [hp] at h
        simp at h
        have := ih j hp
        simp only [List.length_cons]
        omega

/-! ### Lemmas about layer search and innermost modification -/

theorem modifyFirstMatch_none_iff (scope : TypeId) (f : Layer → Layer) (rl : List Layer) :
    modifyFirstMatch scope f rl = none ↔ rl.find? (fun l => l.type_id == scope) = none := by
  induction rl with
  | nil => simp [modifyFirstMatch]
  | cons l rest ih =>
    by_cases hl : l.type_id = scope
    · simp [modifyFirstMatch, hl, List.find?_cons_of_pos]
    · have hlb : (l.type_id == scope) = false := by simp [hl]
      simp [modifyFirstMatch, hl, List.find?_cons_of_neg, hlb, ih]

theorem find_bind_modifyFirstMatch {β : Type} (scope scope2 : TypeId) (f : Layer → Layer)
    (g : Layer → Option β) (hf : ∀ l, (f l).type_id = l.type_id) (hg : ∀ l, g (f l) = g l)
    (rl rl' : List Layer) (h : modifyFirstMatch scope f rl = some rl') :
    (rl'.find? (fun l => l.type_id == scope2)).bind g
      = (rl.find? (fun l => l.type_id == scope2)).bind g := by
  induction rl generalizing rl' with
  | nil => simp [modifyFirstMatch] at h
  | cons l rest ih =>
    simp only [modifyFirstMatch] at h
    by_cases hl : l.type_id = scope
    · rw [if_pos hl] at h
      obtain rfl : f l :: rest = rl' := Option.some.injEq _ _ ▸ h
      by_cases hp : l.type_id = scope2
      · have hp2 : (f l).type_id = scope2 := by rw [hf]; exact hp
        rw [List.find?_cons_of_pos _ (by simp [hp2]), List.find?_cons_of_pos _ (by simp [hp])]
        simp [hg]
      · have hp2 : ¬ (f l).type_id = scope2 := by rw [hf]; exact hp
        rw [List.find?_cons_of_neg _ (by simp [hp2]), List.find?_cons_of_neg _ (by simp [hp])]
    · rw [if_neg hl] at h
      cases hm : modifyFirstMatch scope f rest with
      | none => rw [hm] at h; simp at h
      | some rest2 =>
        rw [hm] at h
        rw [Option.map_some'] at h
        obtain rfl : l :: rest2 = rl' := Option.some.injEq _ _ ▸ h
        by_cases hp : l.type_id = scope2
        · rw [List.find?_cons_of_pos _ (by simp [hp]), List.find?_cons_of_pos _ (by simp [hp])]
        · rw [List.find?_cons_of_neg _ (by simp [hp]), List.find?_cons_of_neg _ (by simp [hp])]
          exact ih rest2 hm

theorem map_typeid_modifyFirstMatch (scope : TypeId) (f : Layer → Layer)
    (hf : ∀ l, (f l).type_id = l.type_id) (rl rl' : List Layer)
    (h : modifyFirstMatch scope f rl = some rl') :
    rl'.map Layer.type_id = rl.map Layer.type_id := by
  induction rl generalizing rl' with
  | nil => simp [modifyFirstMatch] at h
  | cons l rest ih =>
    simp only [modifyFirstMatch] at h
    by_cases hl : l.type_id = scope
    · rw [if_pos hl] at h
      obtain rfl : f l :: rest = rl' := Option.some.injEq _ _ ▸ h
      simp [hf]
    · rw [if_neg hl] at h
      cases hm : modifyFirstMatch scope f rest with
      | none => rw [hm] at h; simp at h
      | some rest2 =>
        rw [hm] at h
        rw [Option.map_some'] at h
        obtain rfl : l :: rest2 = rl' := Option.some.injEq _ _ ▸ h
        simp [ih rest2 hm]

theorem find_modifyFirstMatch_self (scope : TypeId) (f : Layer → Layer)
    (hf : ∀ l, (f l).type_id = l.type_id) (rl rl' : List Layer) (l₀ : Layer)
    (h : modifyFirstMatch scope f rl = some rl')
    (hfind : rl.find? (fun l => l.type_id == scope) = some l₀) :
    rl'.find? (fun l => l.type_id == scope) = some (f l₀) := by
  induction rl generalizing rl' with
  | nil => simp [modifyFirstMatch] at h
  | cons l rest ih =>
    simp only [modifyFirstMatch] at h
    by_cases hl : l.type_id = scope
    · rw [if_pos hl] at h
      obtain rfl : f l :: rest = rl' := Option.some.injEq _ _ ▸ h
      rw [List.find?_cons_of_pos _ (by simp [hl])] at hfind
      obtain rfl : l = l₀ := Option.some.injEq _ _ ▸ hfind
      have hl2 : (f l).type_id = scope := by rw [hf]; exact hl
      rw [List.find?_cons_of_pos _ (by simp [hl2])]
    · rw [if_neg hl] at h
      rw [List.find?_cons_of_neg _ (by simp [hl])] at hfind
      cases hm : modifyFirstMatch scope f rest with
      | none => rw [hm] at h; simp at h
      | some rest2 =>
        rw [hm] at h
        rw [Option.map_some'] at h
        obtain rfl : l :: rest2 = rl' := Option.some.injEq _ _ ▸ h
        rw [List.find?_cons_of_neg _ (by simp [hl])]
        exact ih rest2 hm hfind

theorem modifyFirstMatch_noop (scope : TypeId) (f : Layer → Layer) (rl : List Layer)
    (l₀ : Layer) (hfind : rl.find? (fun l => l.type_id == scope) = some l₀)
    (hid : f l₀ = l₀) : modifyFirstMatch scope f rl = some rl := by
  induction rl with
  | nil => simp at hfind
  | cons l rest ih =>
    simp only [modifyFirstMatch]
    by_cases hl : l.type_id = scope
    · rw [List.find?_cons_of_pos _ (by simp [hl])] at hfind
      obtain rfl : l = l₀ := Option.some.injEq _ _ ▸ hfind
      rw [if_pos hl, hid]
    · rw [List.find?_cons_of_neg _ (by simp [hl])] at hfind
      rw [if_neg hl, ih hfind]
      rfl

theorem modifyInnermost_none_iff (scope : TypeId) (f : Layer → Layer) (layers : List Layer) :
    modifyInnermost scope f layers = none ↔ ctxFind scope layers = none := by
  unfold modifyInnermost ctxFind
  rw [← modifyFirstMatch_none_iff scope f]
  cases modifyFirstMatch scope f layers.reverse <;> simp

theorem modifyInnermost_isSome (scope : TypeId) (f : Layer → Layer) (layers : List Layer)
    (l₀ : Layer) (hfind : ctxFind scope layers = some l₀) :
    ∃ layers2, modifyInnermost scope f layers = some layers2 := by
  cases hm : modifyInnermost scope f layers with
  | none =>
    rw [modifyInnermost_none_iff, hfind] at hm
    cases hm
  | some layers2 => exact ⟨layers2, rfl⟩

theorem ctxFind_modifyInnermost_self (scope : TypeId) (f : Layer → Layer)
    (hf : ∀ l, (f l).type_id = l.type_id) (layers layers2 : List Layer) (l₀ : Layer)
    (h : modifyInnermost scope f layers = some layers2)
    (hfind : ctxFind scope layers = some l₀) :
    ctxFind scope layers2 = some (f l₀) := by
  unfold modifyInnermost at h
  cases hm : modifyFirstMatch scope f layers.reverse with
  | none => rw [hm] at h; simp at h
  | some rl2 =>
    rw [hm, Option.map_some'] at h
    obtain rfl : rl2.reverse = layers2 := Option.some.injEq _ _ ▸ h
    unfold ctxFind
    rw [List.reverse_reverse]
    exact find_modifyFirstMatch_self scope f hf _ _ l₀ hm hfind

theorem ctxGet_modifyInnermost {β : Type} (scope scope2 : TypeId) (f : Layer → Layer)
    (g : Layer → Option β) (hf : ∀ l, (f l).type_id = l.type_id) (hg : ∀ l, g (f l) = g l)
    (layers layers2 : List Layer) (h : modifyInnermost scope f layers = some layers2) :
    (ctxFind scope2 layers2).bind g = (ctxFind scope2 layers).bind g := by
  unfold modifyInnermost at h
  cases hm : modifyFirstMatch scope f layers.reverse with
  | none => rw [hm] at h; simp at h
  | some rl2 =>
    rw [hm, Option.map_some'] at h
    obtain rfl : rl2.reverse = layers2 := Option.some.injEq _ _ ▸ h
    unfold ctxFind
    rw [List.reverse_reverse]
    exact find_bind_modifyFirstMatch scope scope2 f g hf hg _ _ hm

theorem map_typeid_modifyInnermost (scope : TypeId) (f : Layer → Layer)
    (hf : ∀ l, (f l).type_id = l.type_id) (layers layers2 : List Layer)
    (h : modifyInnermost scope f layers = some layers2) :
    layers2.map Layer.type_id = layers.map Layer.type_id := by
  unfold modifyInnermost at h
  cases hm : modifyFirstMatch scope f layers.reverse with
  | none => rw [hm] at h; simp at h
  | some rl2 =>
    rw [hm, Option.map_some'] at h
    obtain rfl : rl2.reverse = layers2 := Option.some.injEq _ _ ▸ h
    have hrl := map_typeid_modifyFirstMatch scope f hf _ _ hm
    have : (rl2.reverse.map Layer.type_id).reverse = (layers.map Layer.type_id).reverse := by
      rw [List.map_reverse, List.reverse_reverse, ← List.map_reverse, hrl]
    exact List.reverse_injective this

theorem find_none_iff_typeids (scope2 : TypeId) (L : List Layer) :
    (L.find? (fun l => l.type_id == scope2) = none) ↔
      (∀ t ∈ L.map Layer.type_id, t ≠ scope2) := by
  rw [List.find?_eq_none]
  constructor
  · intro h t ht
    obtain ⟨x, hx, rfl⟩ := List.mem_map.mp ht
    intro hq
    exact absurd (by simp [hq] : (fun l => l.type_id == scope2) x = true) (h x hx)
  · intro h x hx
    have := h x.type_id (List.mem_map_of_mem _ hx)
    simp [this]

theorem ctxFind_none_congr (scope2 : TypeId) (layers layers2 : List Layer)
    (hmap : layers2.map Layer.type_id = layers.map Layer.type_id) :
    (ctxFind scope2 layers2 = none ↔ ctxFind scope2 layers = none) := by
  unfold ctxFind
  have hrev : layers2.reverse.map Layer.type_id = layers.reverse.map Layer.type_id := by
    rw [List.map_reverse, List.map_reverse, hmap]
  rw [find_none_iff_typeids, find_none_iff_typeids, hrev]

theorem ctxFind_modifyInnermost_other {β : Type} (scope scope2 : TypeId) (f : Layer → Layer)
    (g : Layer → Option β) (hf : ∀ l, (f l).type_id = l.type_id) (hg : ∀ l, g (f l) = g l)
    (layers layers2 : List Layer) (l₀ : Layer)
    (h : modifyInnermost scope f layers = some layers2)
    (hfind : ctxFind scope2 layers = some l₀) :
    ∃ l₁, ctxFind scope2 layers2 = some l₁ ∧ g l₁ = g l₀ := by
  have hmap := map_typeid_modifyInnermost scope f hf layers layers2 h
  cases hc : ctxFind scope2 layers2 with
  | none =>
    rw [ctxFind_none_congr scope2 layers layers2 hmap, hfind] at hc
    cases hc
  | some l₁ =>
    refine ⟨l₁, rfl, ?_⟩
    have hb := ctxGet_modifyInnermost scope scope2 f g hf hg layers layers2 h
    rw [hc, hfind] at hb
    simpa using hb

theorem modifyInnermost_noop (scope : TypeId) (f : Layer → Layer) (layers : List Layer)
    (l₀ : Layer) (hfind : ctxFind scope layers = some l₀) (hid : f l₀ = l₀) :
    modifyInnermost scope f layers = some layers := by
  have hfind2 : layers.reverse.find? (fun l => l.type_id == scope) = some l₀ := hfind
  unfold modifyInnermost
  rw [modifyFirstMatch_noop scope f layers.reverse l₀ hfind2 hid]
  simp

theorem listPos_eq_none_of_not_mem {α : Type} [DecidableEq α] (x : α) (l : List α)
    (h : x ∉ l) : listPos x l = none := by
  induction l with
  | nil => rfl
  | cons a rest ih =>
    have hne : ¬ a = x := fun he => h (he ▸ List.mem_cons_self a rest)
    have hrest : x ∉ rest := fun hr => h (List.mem_cons_of_mem a hr)
    rw [listPos, if_neg hne, ih hrest]
    rfl

theorem find?_first_after (p : Layer → Bool) (xs ys : List Layer) (l : Layer)
    (hxs : ∀ x ∈ xs, p x = false) (hl : p l = true) :
    (xs ++ l :: ys).find? p = some l := by
  induction xs with
  | nil => simp [List.find?_cons_of_pos _ hl]
  | cons a rest ih =>
    have ha := hxs a (by simp)
    rw [List.cons_append, List.find?_cons_of_neg _ (by simp [ha])]
    exact ih (fun x hx => hxs x (by simp [hx]))

/-- Core fact behind the duplicate check: a `new` declaration whose name is
already present in the visible counter fails with the duplicate error and
returns the context entirely unchanged (the lazily-ensured slot already
exists, and the check precedes the append). -/
theorem convert_new_duplicate (kindX scopeX : TypeId) (name : String) (tr : Bool)
    (imp : List TypeId) (ctx : DefaultContext) (lp : Layer) (names : List String)
    (hfind : ctxFind scopeX ctx.layers = some lp)
    (hget : alistGet kindX lp.counters = some names) (hmem : name ∈ names) :
    convert_impl kindX scopeX name ⟨true, tr, imp⟩ ctx = (.err (.duplicateId name), ctx) := by
  have hnoop : modifyInnermost scopeX
      (fun l => { l with counters := alistEnsure kindX [] l.counters }) ctx.layers
      = some ctx.layers := by
    apply modifyInnermost_noop scopeX _ ctx.layers lp hfind
    rw [alistEnsure_of_get_eq_some kindX [] names lp.counters hget]
  unfold convert_impl
  simp only [hfind, hnoop, hget]
  simp [hmem]

/-- C4: for every context, declaring (`new = true`) a name that already
appears in the kind's visible declaration counter fails with the
duplicate-identifier error, regardless of the name's position in the counter,
and the failure leaves the whole context — in particular the counter's name
list — unchanged: the duplicate check precedes the append. -/
theorem claim_c4_duplicate_identifier (kindX scopeX : TypeId) (name : String) (tr : Bool)
    (imp : List TypeId) (ctx : DefaultContext) (lp : Layer) (names : List String)
    (hfind : ctxFind scopeX ctx.layers = some lp)
    (hget : alistGet kindX lp.counters = some names) (hmem : name ∈ names) :
    convert_impl kindX scopeX name ⟨true, tr, imp⟩ ctx = (.err (.duplicateId name), ctx) :=
  convert_new_duplicate kindX scopeX name tr imp ctx lp names hfind hget hmem

/-- Witness context for C4: one root layer holding a counter for kind 1 with
names "a", "b". -/
def ctxC4 : DefaultContext := ⟨[⟨0, [(1, ["a", "b"])], none, none, []⟩]⟩

/-- Witness for C4 at a concrete input: re-declaring "b" (which sits at
position 1, not 0) fails with the duplicate error and leaves the context
unchanged. -/
theorem claim_c4_witness :
    convert_impl 1 0 "b" ⟨true, false, []⟩ ctxC4 = (.err (.duplicateId "b"), ctxC4) :=
  claim_c4_duplicate_identifier 1 0 "b" false [] ctxC4
    ⟨0, [(1, ["a", "b"])], none, none, []⟩ ["a", "b"] (by rfl) (by rfl) (by decide)

/-- Context for C9: a root layer plus one layer tagged 5. -/
def ctxC9 : DefaultContext := ⟨[mkLayer 0, mkLayer 5]⟩

/-- C9 is refuted as stated: the tag/depth verification of `end_scope` is
`debug_assert_eq!`, which compiles out in a release build, so there a pop
with a wrong kind key (7 instead of 5) and a wrong depth pops the layer and
succeeds silently — it is not a fatal panic.  The same mismatched pop does
panic in a debug build, where the assertions are active. -/
theorem claim_c9_counterexample :
    endScopeRelease ⟨7, 0⟩ ctxC9 = some ⟨[mkLayer 0]⟩ ∧
    endScope ⟨7, 0⟩ ctxC9 = none := by
  constructor
  · rfl
  · unfold endScope ctxC9
    simp [mkLayer]

/-- C9 (amended): `end_scope` pops the top layer, panicking on an empty stack
in every build; the kind-key/depth verification is `debug_assert_eq!`, so it
runs only in debug builds.  In a debug build a matching pop restores the
previous stack, any mismatch of key or depth is a panic (`none`), and a pop
that returns was a matching pop — never a returned error value.  In a release
build the verification compiles out: every pop of a nonempty stack pops the
top layer and succeeds, silently even for a mismatched handle. -/
theorem claim_c9_lifo_pop (ctx : DefaultContext) (t : TypeId) (h : ScopeHandle) (l : Layer)
    (hl : ctx.layers.getLast? = some l) :
    (endScope (startScope t ctx).1 (startScope t ctx).2 = some ctx) ∧
    ((h.type_id ≠ l.type_id ∨ h.index ≠ ctx.layers.length - 1) → endScope h ctx = none) ∧
    (∀ ctx2, endScope h ctx = some ctx2 →
      h.type_id = l.type_id ∧ h.index = ctx.layers.length - 1 ∧
        ctx2.layers = ctx.layers.dropLast) ∧
    endScopeRelease h ctx = some ⟨ctx.layers.dropLast⟩ := by
  refine ⟨?_, ?_, ?_, ?_⟩
  · unfold startScope endScope
    simp only [List.getLast?_concat]
    rw [if_pos ⟨rfl, by simp⟩]
    simp [List.dropLast_concat]
  · intro hmis
    unfold endScope
    rw [hl]
    dsimp only
    rw [if_neg]
    intro ⟨h1, h2⟩
    rcases hmis with hm | hm
    · exact hm h1
    · exact hm h2
  · intro ctx2 h2
    unfold endScope at h2
    rw [hl] at h2
    dsimp only at h2
    by_cases hc : h.type_id = l.type_id ∧ h.index = ctx.layers.length - 1
    · rw [if_pos hc] at h2
      obtain rfl : DefaultContext.mk ctx.layers.dropLast = ctx2 := Option.some.injEq _ _ ▸ h2
      exact ⟨hc.1, hc.2, rfl⟩
    · rw [if_neg hc] at h2
      cases h2
  · unfold endScopeRelease
    rw [hl]

/-- Witness for C9 at a concrete input: a matching push/pop round-trips, a
pop with a wrong kind key (7 instead of 5) and wrong depth panics in the
debug build, and the release build pops the layer for the same wrong handle. -/
theorem claim_c9_witness :
    (endScope (startScope 3 ctxC9).1 (startScope 3 ctxC9).2 = some ctxC9) ∧
    endScope ⟨7, 1⟩ ctxC9 = none ∧
    endScopeRelease ⟨7, 1⟩ ctxC9 = some ⟨[mkLayer 0]⟩ := by
  have h := claim_c9_lifo_pop ctxC9 3 ⟨7, 1⟩ (mkLayer 5) (by rfl)
  exact ⟨h.1, h.2.1 (by simp [mkLayer]), h.2.2.2⟩

/-- C8 counterexample context: two layers both tagged 0; the outer (bottom)
one holds an `IdCounter` slot for kind 1, the inner (top) one holds no slot. -/
def ctxShadow : DefaultContext :=
  ⟨[⟨0, [(1, ["a"])], none, none, []⟩, mkLayer 0]⟩

/-- C8 counterexample: a layer tagged 0 (the bottom one) holds the counter
slot for kind 1 with value `["a"]`, yet `get` returns `none`, because the
innermost layer tagged 0 holds no such slot.  This refutes "if any layer
tagged kind_key holds a slot of type T, get returns Some of the innermost
such slot, and it returns None only when no layer tagged kind_key holds a
slot of type T". -/
theorem claim_c8_counterexample :
    ctxGet (fun l => alistGet 1 l.counters) 0 ctxShadow = none ∧
    (ctxShadow.layers.get? 0).map Layer.type_id = some 0 ∧
    (ctxShadow.layers.get? 0).map (fun l => alistGet 1 l.counters) = some (some ["a"]) :=
  ⟨rfl, rfl, rfl⟩

/-- C8 amended: `get(kind_key)` for a slot family locates only the innermost
layer tagged `kind_key` and returns that layer's slot (possibly absent);
it returns `none` when no layer is tagged `kind_key`, and slots held by outer
layers with the same tag are shadowed rather than searched. -/
theorem claim_c8_innermost_get {β : Type} (g : Layer → Option β) (ctx : DefaultContext)
    (scope : TypeId) (pre post : List Layer) (l : Layer) :
    ((∀ x ∈ ctx.layers, x.type_id ≠ scope) → ctxGet g scope ctx = none) ∧
    (ctx.layers = pre ++ l :: post → l.type_id = scope →
      (∀ x ∈ post, x.type_id ≠ scope) → ctxGet g scope ctx = g l) := by
  constructor
  · intro hall
    unfold ctxGet ctxFind
    rw [List.find?_eq_none.mpr]
    · rfl
    · intro x hx
      have := hall x (List.mem_reverse.mp hx)
      simp [this]
  · intro hshape hup hdown
    unfold ctxGet ctxFind
    rw [hshape]
    have hrev : (pre ++ l :: post).reverse = post.reverse ++ l :: pre.reverse := by
      simp
    rw [hrev, find?_first_after _ _ _ l ?_ (by simp [hup])]
    · rfl
    · intro x hx
      have := hdown x (List.mem_reverse.mp hx)
      simp [this]

/-- Witness for amended C8 at a concrete input: on the shadowing context,
`get` returns the (absent) slot of the innermost layer tagged 0. -/
theorem claim_c8_witness :
    ctxGet (fun l => alistGet 1 l.counters) 0 ctxShadow = none := by
  have h := claim_c8_innermost_get (fun l => alistGet 1 l.counters) ctxShadow 0
    [⟨0, [(1, ["a"])], none, none, []⟩] [] (mkLayer 0)
  exact h.2 rfl rfl (by intro x hx; cases hx)

/-- C7: `nth_last_scope n` returns the kind key of the nth layer counted from
the top of the stack (n = 0 is the current layer), and returns `none` when
`n` reaches or exceeds the stack depth (the wrapping `usize` index then falls
outside the vector). -/
theorem claim_c7_nth_last_scope (ctx : DefaultContext) (n : Nat) (hn : n < USIZE)
    (hlen : ctx.layers.length < USIZE) :
    nth_last_scope ctx n = (ctx.layers.reverse.get? n).map Layer.type_id := by
  unfold nth_last_scope usizeSub
  have hU : (340 : Nat) < USIZE := by norm_num [USIZE]
  have h1 : (1 : Nat) % USIZE = 1 := Nat.mod_eq_of_lt (by omega)
  have hnm : n % USIZE = n := Nat.mod_eq_of_lt hn
  rw [hnm, h1]
  by_cases hcase : n < ctx.layers.length
  · have hinner : (ctx.layers.length + (USIZE - n)) % USIZE = ctx.layers.length - n := by
      rw [show ctx.layers.length + (USIZE - n) = USIZE + (ctx.layers.length - n) by omega,
        Nat.add_mod_left]
      exact Nat.mod_eq_of_lt (by omega)
    rw [hinner]
    have houter : (ctx.layers.length - n + (USIZE - 1)) % USIZE
        = ctx.layers.length - n - 1 := by
      rw [show ctx.layers.length - n + (USIZE - 1) = USIZE + (ctx.layers.length - n - 1) by
        omega, Nat.add_mod_left]
      exact Nat.mod_eq_of_lt (by omega)
    rw [houter]
    rw [List.get?_reverse (by simpa using hcase)]
    rw [show ctx.layers.length - n - 1 = ctx.layers.length - 1 - n by omega]
  · by_cases heq : n = ctx.layers.length
    · have hinner : (ctx.layers.length + (USIZE - n)) % USIZE = 0 := by
        rw [show ctx.layers.length + (USIZE - n) = USIZE by omega, Nat.mod_self]
      rw [hinner]
      have houter : (0 + (USIZE - 1)) % USIZE = USIZE - 1 := by
        rw [Nat.zero_add]
        exact Nat.mod_eq_of_lt (by omega)
      rw [houter]
      rw [List.get?_eq_none.mpr (by omega),
        List.get?_eq_none.mpr (by rw [List.length_reverse]; omega)]
    · have hgt : ctx.layers.length < n := by omega
      have hinner : (ctx.layers.length + (USIZE - n)) % USIZE
          = ctx.layers.length + (USIZE - n) := Nat.mod_eq_of_lt (by omega)
      rw [hinner]
      have houter : (ctx.layers.length + (USIZE - n) + (USIZE - 1)) % USIZE
          = ctx.layers.length + (USIZE - n) - 1 := by
        rw [show ctx.layers.length + (USIZE - n) + (USIZE - 1)
            = USIZE + (ctx.layers.length + (USIZE - n) - 1) by omega, Nat.add_mod_left]
        exact Nat.mod_eq_of_lt (by omega)
      rw [houter]
      rw [List.get?_eq_none.mpr (by omega),
        List.get?_eq_none.mpr (by rw [List.length_reverse]; omega)]

/-- Witness context for C7: three layers tagged 0, 4, 7. -/
def ctxC7 : DefaultContext := ⟨[mkLayer 0, mkLayer 4, mkLayer 7]⟩

/-- Witness for C7 at concrete inputs: the 1st layer from the top has key 4,
and index 3 (one past the depth) yields `none`. -/
theorem claim_c7_witness :
    nth_last_scope ctxC7 1 = some 4 ∧ nth_last_scope ctxC7 3 = none := by
  constructor
  · rw [claim_c7_nth_last_scope ctxC7 1 (by norm_num [USIZE]) (by norm_num [ctxC7, USIZE])]
    rfl
  · rw [claim_c7_nth_last_scope ctxC7 3 (by norm_num [USIZE]) (by norm_num [ctxC7, USIZE])]
    rfl

/-- C5: resolving (`new = false`) a name of a kind whose counter is not
visible in any layer keyed by the kind's scope: with no import-table entry
for the kind anywhere, the use-before-register error results; with an entry
but no global store for the kind, or a store without the recorded path, an
untracked-scope error results; with a store entry at the path but without the
name, the unknown-identifier error results.  All failures leave the context
unchanged. -/
theorem claim_c5_resolution_errors (kindX scopeX : TypeId) (name : String) (tr : Bool)
    (imp : List TypeId) (ctx : DefaultContext)
    (hcnt : (ctxFind scopeX ctx.layers).bind (fun l => alistGet kindX l.counters) = none) :
    (findImportPath kindX ctx.layers = none →
      convert_impl kindX scopeX name ⟨false, tr, imp⟩ ctx = (.err .useBeforeRegister, ctx)) ∧
    (∀ path, findImportPath kindX ctx.layers = some path →
      ((ctxFind unitTid ctx.layers).bind (fun l => alistGet kindX l.stores) = none →
        ∃ e, convert_impl kindX scopeX name ⟨false, tr, imp⟩ ctx = (.err e, ctx) ∧
          e.isUntrackedScope = true) ∧
      (∀ st, (ctxFind unitTid ctx.layers).bind (fun l => alistGet kindX l.stores) = some st →
        (alistGet path st.ids = none →
          ∃ e, convert_impl kindX scopeX name ⟨false, tr, imp⟩ ctx = (.err e, ctx) ∧
            e.isUntrackedScope = true) ∧
        (∀ ids, alistGet path st.ids = some ids → name ∉ ids →
          convert_impl kindX scopeX name ⟨false, tr, imp⟩ ctx
            = (.err (.unknownId name), ctx)))) := by
  refine ⟨?_, ?_⟩
  · intro h1
    unfold convert_impl
    simp only [Bool.false_eq_true, if_false, hcnt, h1]
  · intro path hpath
    refine ⟨?_, ?_⟩
    · intro hst
      refine ⟨.importNotTracked kindX, ?_, rfl⟩
      unfold convert_impl
      simp only [Bool.false_eq_true, if_false, hcnt, hpath, hst]
    · intro st hst
      refine ⟨?_, ?_⟩
      · intro hids
        refine ⟨.importedIdNotTracked, ?_, rfl⟩
        unfold convert_impl
        simp only [Bool.false_eq_true, if_false, hcnt, hpath, hst, hids]
      · intro ids hids hmem
        have hpos : listPos name ids = none := listPos_eq_none_of_not_mem name ids hmem
        unfold convert_impl
        simp only [Bool.false_eq_true, if_false, hcnt, hpath, hst, hids, hpos]

/-- Witness contexts for C5: no import anywhere; import without store; store
without the recorded path; store entry missing the name. -/
def ctxC5a : DefaultContext := ⟨[mkLayer 0, mkLayer 3]⟩

def ctxC5b : DefaultContext := ⟨[mkLayer 0, ⟨3, [], none, some ⟨[(2, [0])]⟩, []⟩]⟩

def ctxC5c : DefaultContext :=
  ⟨[⟨0, [], none, none, [(2, ⟨[]⟩)]⟩, ⟨3, [], none, some ⟨[(2, [0])]⟩, []⟩]⟩

def ctxC5d : DefaultContext :=
  ⟨[⟨0, [], none, none, [(2, ⟨[([0], ["x"])]⟩)]⟩, ⟨3, [], none, some ⟨[(2, [0])]⟩, []⟩]⟩

/-- Witness for C5 at concrete inputs, exercising all three error cases. -/
theorem claim_c5_witness :
    convert_impl 2 1 "y" ⟨false, false, []⟩ ctxC5a = (.err .useBeforeRegister, ctxC5a) ∧
    (∃ e, convert_impl 2 1 "y" ⟨false, false, []⟩ ctxC5b = (.err e, ctxC5b) ∧
      e.isUntrackedScope = true) ∧
    (∃ e, convert_impl 2 1 "y" ⟨false, false, []⟩ ctxC5c = (.err e, ctxC5c) ∧
      e.isUntrackedScope = true) ∧
    convert_impl 2 1 "y" ⟨false, false, []⟩ ctxC5d = (.err (.unknownId "y"), ctxC5d) := by
  refine ⟨?_, ?_, ?_, ?_⟩
  · exact (claim_c5_resolution_errors 2 1 "y" false [] ctxC5a (by rfl)).1 (by rfl)
  · exact ((claim_c5_resolution_errors 2 1 "y" false [] ctxC5b (by rfl)).2 [0] (by rfl)).1
      (by rfl)
  · exact (((claim_c5_resolution_errors 2 1 "y" false [] ctxC5c (by rfl)).2 [0]
      (by rfl)).2 ⟨[]⟩ (by rfl)).1 (by rfl)
  · exact (((claim_c5_resolution_errors 2 1 "y" false [] ctxC5d (by rfl)).2 [0]
      (by rfl)).2 ⟨[([0], ["x"])]⟩ (by rfl)).2 ["x"] (by rfl) (by decide)

/-- Core fact for the first (successful) untracked declaration of a kind in a
general context: the counter is visible at the kind's scope, the name is
fresh, the counter is not full, and the kind's own layer holds no
current-declaration record yet; the returned handle is the counter's previous
length. -/
theorem convert_new_ok (kindX scopeX : TypeId) (name : String) (imp : List TypeId)
    (ctx : DefaultContext) (lp lk : Layer)
    (hfind : ctxFind scopeX ctx.layers = some lp)
    (hmem : name ∉ (alistGet kindX lp.counters).getD [])
    (hlen : ((alistGet kindX lp.counters).getD []).length ≤ u32Max)
    (hlk : ctxFind kindX ctx.layers = some lk) (hcur : lk.currentId = none) :
    (convert_impl kindX scopeX name ⟨true, false, imp⟩ ctx).1
      = .ok ((alistGet kindX lp.counters).getD []).length := by
  obtain ⟨layers2, hl2⟩ := modifyInnermost_isSome scopeX
    (fun l =>
      { l with counters := alistSet kindX ((alistGet kindX lp.counters).getD [] ++ [name]) l.counters })
    ctx.layers lp hfind
  obtain ⟨lk2, hlk2, hcur2⟩ := ctxFind_modifyInnermost_other scopeX kindX
    (fun l =>
      { l with counters := alistSet kindX ((alistGet kindX lp.counters).getD [] ++ [name]) l.counters })
    Layer.currentId (fun l => rfl) (fun l => rfl) ctx.layers layers2 lk hl2 hlk
  rw [hcur] at hcur2
  unfold convert_impl
  simp only [if_true, Bool.false_eq_true, if_false, hfind, hl2, hlk2, hcur2,
    if_neg hmem, Option.getD_some, if_neg (Nat.not_lt.mpr hlen)]

/-- Core fact for a second `new` declaration of a kind on an object layer
that already holds a current-declaration record: the counter append happens
first, and then the multiple-declarations error is produced, carrying the new
index and the existing index. -/
theorem convert_new_multi (kindX scopeX : TypeId) (name : String) (tr : Bool)
    (imp : List TypeId) (ctx : DefaultContext) (lp lk : Layer) (cur : CurrentId)
    (hfind : ctxFind scopeX ctx.layers = some lp)
    (hmem : name ∉ (alistGet kindX lp.counters).getD [])
    (hlen : ((alistGet kindX lp.counters).getD []).length ≤ u32Max)
    (hlk : ctxFind kindX ctx.layers = some lk) (hcur : lk.currentId = some cur) :
    ∃ layers2,
      modifyInnermost scopeX
        (fun l =>
          { l with counters := alistSet kindX ((alistGet kindX lp.counters).getD [] ++ [name]) l.counters })
        ctx.layers = some layers2 ∧
      convert_impl kindX scopeX name ⟨true, tr, imp⟩ ctx
        = (.err (.multipleNewIds kindX ((alistGet kindX lp.counters).getD []).length cur.id),
            ⟨layers2⟩) := by
  obtain ⟨layers2, hl2⟩ := modifyInnermost_isSome scopeX
    (fun l =>
      { l with counters := alistSet kindX ((alistGet kindX lp.counters).getD [] ++ [name]) l.counters })
    ctx.layers lp hfind
  obtain ⟨lk2, hlk2, hcur2⟩ := ctxFind_modifyInnermost_other scopeX kindX
    (fun l =>
      { l with counters := alistSet kindX ((alistGet kindX lp.counters).getD [] ++ [name]) l.counters })
    Layer.currentId (fun l => rfl) (fun l => rfl) ctx.layers layers2 lk hl2 hlk
  rw [hcur] at hcur2
  refine ⟨layers2, hl2, ?_⟩
  unfold convert_impl
  simp only [if_true, Bool.false_eq_true, if_false, hfind, hl2, hlk2, hcur2,
    if_neg hmem, Option.getD_some, if_neg (Nat.not_lt.mpr hlen)]

/-- C3: for one object instance (layer) of a kind, the first `new`
declaration succeeds, and a second `new` declaration of the same kind on the
same layer fails with the multiple-declarations error carrying the new index
and the existing index, even though the two names differ (the fresh name
passes the duplicate check and is only then caught by the record check). -/
theorem claim_c3_multiple_declarations (kindX scopeX : TypeId) (name : String) (tr : Bool)
    (imp : List TypeId) (ctx : DefaultContext) (lp lk : Layer)
    (hfind : ctxFind scopeX ctx.layers = some lp)
    (hmem : name ∉ (alistGet kindX lp.counters).getD [])
    (hlen : ((alistGet kindX lp.counters).getD []).length ≤ u32Max)
    (hlk : ctxFind kindX ctx.layers = some lk) :
    (lk.currentId = none →
      (convert_impl kindX scopeX name ⟨true, false, imp⟩ ctx).1
        = .ok ((alistGet kindX lp.counters).getD []).length) ∧
    (∀ cur, lk.currentId = some cur →
      (convert_impl kindX scopeX name ⟨true, tr, imp⟩ ctx).1
        = .err (.multipleNewIds kindX ((alistGet kindX lp.counters).getD []).length cur.id)) := by
  constructor
  · intro hcur
    exact convert_new_ok kindX scopeX name imp ctx lp lk hfind hmem hlen hlk hcur
  · intro cur hcur
    obtain ⟨layers2, _, heq⟩ := convert_new_multi kindX scopeX name tr imp ctx lp lk cur
      hfind hmem hlen hlk hcur
    rw [heq]

/-- Witness context for C3: root, one scope layer tagged 1, one object layer
tagged 2. -/
def ctxC3 : DefaultContext := ⟨[mkLayer 0, mkLayer 1, mkLayer 2]⟩

/-- The context after the first successful declaration of "a" on `ctxC3`. -/
def ctxC3b : DefaultContext := (convert_impl 2 1 "a" ⟨true, false, []⟩ ctxC3).2

/-- Witness for C3 at a concrete input: on the same object layer, declaring
"a" succeeds with handle 0, then declaring the different name "b" fails with
the multiple-declarations error carrying (new index 1, existing index 0). -/
theorem claim_c3_witness :
    (convert_impl 2 1 "a" ⟨true, false, []⟩ ctxC3).1 = .ok 0 ∧
    (convert_impl 2 1 "b" ⟨true, false, []⟩ ctxC3b).1 = .err (.multipleNewIds 2 1 0) := by
  constructor
  · exact (claim_c3_multiple_declarations 2 1 "a" false [] ctxC3 (mkLayer 1) (mkLayer 2)
      (by rfl) (by decide) (by decide) (by rfl)).1 rfl
  · exact (claim_c3_multiple_declarations 2 1 "b" false [] ctxC3b
      ⟨1, [(2, ["a"])], none, none, []⟩ ⟨2, [], some ⟨0, 1, "a"⟩, none, []⟩
      (by rfl) (by decide) (by decide) (by rfl)).2 ⟨0, 1, "a"⟩ rfl

/-- C10: a `new` declaration failing with the multiple-declarations error is
not atomic: the name was appended to the counter before the failure, so in
the post-failure context the name occupies the reported new index of the
counter, and declaring the same name there again fails with the
duplicate-identifier error. -/
theorem claim_c10_multi_decl_not_atomic (kindX scopeX : TypeId) (name : String)
    (tr tr2 : Bool) (imp imp2 : List TypeId) (ctx : DefaultContext) (lp lk : Layer)
    (cur : CurrentId)
    (hfind : ctxFind scopeX ctx.layers = some lp)
    (hmem : name ∉ (alistGet kindX lp.counters).getD [])
    (hlen : ((alistGet kindX lp.counters).getD []).length ≤ u32Max)
    (hlk : ctxFind kindX ctx.layers = some lk) (hcur : lk.currentId = some cur) :
    ∃ ctx2 lp2,
      convert_impl kindX scopeX name ⟨true, tr, imp⟩ ctx
        = (.err (.multipleNewIds kindX ((alistGet kindX lp.counters).getD []).length cur.id),
            ctx2) ∧
      ctxFind scopeX ctx2.layers = some lp2 ∧
      alistGet kindX lp2.counters = some ((alistGet kindX lp.counters).getD [] ++ [name]) ∧
      convert_impl kindX scopeX name ⟨true, tr2, imp2⟩ ctx2
        = (.err (.duplicateId name), ctx2) := by
  obtain ⟨layers2, hl2, heq⟩ := convert_new_multi kindX scopeX name tr imp ctx lp lk cur
    hfind hmem hlen hlk hcur
  have hlp2 := ctxFind_modifyInnermost_self scopeX
    (fun l =>
      { l with counters := alistSet kindX ((alistGet kindX lp.counters).getD [] ++ [name]) l.counters })
    (fun l => rfl) ctx.layers layers2 lp hl2 hfind
  refine ⟨⟨layers2⟩, _, heq, hlp2, ?_, ?_⟩
  · exact alistGet_alistSet_self kindX _ lp.counters
  · exact convert_new_duplicate kindX scopeX name tr2 imp2 ⟨layers2⟩ _ _ hlp2
      (alistGet_alistSet_self kindX _ lp.counters) (by simp)

/-- Witness for C10 at a concrete input: after the failing declaration of
"b", the counter holds ["a", "b"] and re-declaring "b" is a duplicate. -/
theorem claim_c10_witness :
    ∃ ctx2 lp2,
      convert_impl 2 1 "b" ⟨true, false, []⟩ ctxC3b = (.err (.multipleNewIds 2 1 0), ctx2) ∧
      ctxFind 1 ctx2.layers = some lp2 ∧
      alistGet 2 lp2.counters = some ["a", "b"] ∧
      convert_impl 2 1 "b" ⟨true, false, []⟩ ctx2 = (.err (.duplicateId "b"), ctx2) :=
  claim_c10_multi_decl_not_atomic 2 1 "b" false false [] [] ctxC3b
    ⟨1, [(2, ["a"])], none, none, []⟩ ⟨2, [], some ⟨0, 1, "a"⟩, none, []⟩ ⟨0, 1, "a"⟩
    (by rfl) (by decide) (by decide) (by rfl) rfl

/-! ### The ancestor-record chain and the persistent store -/

/-- The ancestor-record relation described by the persistence step: starting
from kind `t`, follow each visible `CurrentId` record's parent key until no
record is found; the path lists the record indices in root-to-parent order
(the reverse of collection order). -/
inductive RecordChain (layers : List Layer) : TypeId → List Nat → Prop
  | nil (t : TypeId) : getCurrentId layers t = none → RecordChain layers t []
  | cons (t : TypeId) (r : CurrentId) (p : List Nat) :
      getCurrentId layers t = some r → RecordChain layers r.parent p →
      RecordChain layers t (p ++ [r.id])

/-- The name list stored in the global persistent registry of kind `kindX`
at ancestor path `path` (empty when the root layer, the store, or the path
entry is absent). -/
def storeNames (kindX : TypeId) (path : List Nat) (layers : List Layer) : List String :=
  ((((ctxFind unitTid layers).bind (fun l => alistGet kindX l.stores)).bind
    (fun st => alistGet path st.ids)).getD [])

theorem walkChain_recordChain (layers : List Layer) (fuel : Nat) :
    ∀ (t : TypeId) (c : List Nat), walkChain layers fuel t = some c →
      RecordChain layers t c.reverse := by
  induction fuel with
  | zero =>
    intro t c h
    unfold walkChain at h
    cases hg : getCurrentId layers t with
    | none =>
      rw [hg] at h
      obtain rfl : ([] : List Nat) = c := Option.some.injEq _ _ ▸ h
      exact RecordChain.nil t hg
    | some r => rw [hg] at h; cases h
  | succ fuel ih =>
    intro t c h
    unfold walkChain at h
    cases hg : getCurrentId layers t with
    | none =>
      rw [hg] at h
      obtain rfl : ([] : List Nat) = c := Option.some.injEq _ _ ▸ h
      exact RecordChain.nil t hg
    | some r =>
      rw [hg] at h
      dsimp only at h
      cases hw : walkChain layers fuel r.parent with
      | none => rw [hw] at h; cases h
      | some rest =>
        rw [hw, Option.map_some'] at h
        obtain rfl : r.id :: rest = c := Option.some.injEq _ _ ▸ h
        rw [List.reverse_cons]
        exact RecordChain.cons t r rest.reverse hg (ih r.parent rest hw)

theorem RecordChain_congr (layersA layersB : List Layer)
    (hcur : ∀ t, getCurrentId layersB t = getCurrentId layersA t) :
    ∀ t p, RecordChain layersA t p → RecordChain layersB t p := by
  intro t p h
  induction h with
  | nil t hg => exact .nil t ((hcur t).trans hg)
  | cons t r p hg hrec ih => exact .cons t r p ((hcur t).trans hg) ih

theorem getCurrentId_modifyInnermost (scope : TypeId) (f : Layer → Layer)
    (hf : ∀ l, (f l).type_id = l.type_id) (hg : ∀ l, (f l).currentId = l.currentId)
    (layers layers2 : List Layer) (h : modifyInnermost scope f layers = some layers2) :
    ∀ t, getCurrentId layers2 t = getCurrentId layers t := by
  intro t
  unfold getCurrentId
  exact ctxGet_modifyInnermost scope t f Layer.currentId hf hg layers layers2 h

theorem storeAppend_lookup (kindX : TypeId) (path : List Nat) (name : String)
    (stores : List (TypeId × GlobalIdStore)) :
    (alistGet kindX (storeAppend kindX path name stores)).bind (fun st => alistGet path st.ids)
      = some ((((alistGet kindX stores).bind (fun st => alistGet path st.ids)).getD [])
          ++ [name]) := by
  unfold storeAppend
  cases h : alistGet kindX stores with
  | none => simp [h, alistGet_alistSet_self, alistGet]
  | some st => simp [h, alistGet_alistSet_self]

/-- C6: when a tracked declaration succeeds, the key under which the name is
appended to the global persistent registry is exactly the ancestor-record
chain starting at the kind's scope — following each record's parent key
until no record is found — listed in root-to-parent order (collection order
reversed). -/
theorem claim_c6_persist_path (kindX scopeX : TypeId) (name : String) (imp : List TypeId)
    (ctx ctx' : DefaultContext) (i : Nat)
    (h : convert_impl kindX scopeX name ⟨true, true, imp⟩ ctx = (.ok i, ctx')) :
    ∃ path, RecordChain ctx'.layers scopeX path ∧
      storeNames kindX path ctx'.layers = storeNames kindX path ctx.layers ++ [name] := by
  unfold convert_impl at h
  simp only [if_true] at h
  cases hfind : ctxFind scopeX ctx.layers with
  | none => rw [hfind] at h; simp at h
  | some lp =>
    rw [hfind] at h
    dsimp only at h
    by_cases hmem : name ∈ (alistGet kindX lp.counters).getD []
    · rw [if_pos hmem] at h; simp at h
    · rw [if_neg hmem] at h
      by_cases hlen : u32Max < ((alistGet kindX lp.counters).getD []).length
      · rw [if_pos hlen] at h; simp at h
      · rw [if_neg hlen] at h
        cases hm2 : modifyInnermost scopeX
            (fun l =>
              { l with counters := alistSet kindX ((alistGet kindX lp.counters).getD [] ++ [name]) l.counters })
            ctx.layers with
        | none =>
          rw [modifyInnermost_none_iff, hfind] at hm2
          cases hm2
        | some layers2 =>
          rw [hm2, Option.getD_some] at h
          cases hfk : ctxFind kindX layers2 with
          | none => rw [hfk] at h; simp at h
          | some lk =>
            rw [hfk] at h
            dsimp only at h
            cases hcur : lk.currentId with
            | some cur => rw [hcur] at h; simp at h
            | none =>
              rw [hcur] at h
              dsimp only at h
              cases hm3 : modifyInnermost kindX
                  (fun l =>
                    { l with currentId := some ⟨((alistGet kindX lp.counters).getD []).length, scopeX, name⟩ })
                  layers2 with
              | none =>
                rw [modifyInnermost_none_iff, hfk] at hm3
                cases hm3
              | some layers3 =>
                rw [hm3, Option.getD_some] at h
                cases hwalk : walkChain layers3 (layers3.length + 1) scopeX with
                | none => rw [hwalk] at h; simp at h
                | some collected =>
                  rw [hwalk] at h
                  dsimp only at h
                  cases hst : modifyInnermost unitTid
                      (fun l =>
                        { l with stores := storeAppend kindX collected.reverse name l.stores })
                      layers3 with
                  | none => rw [hst] at h; simp at h
                  | some layers4 =>
                    rw [hst] at h
                    simp only [Prod.mk.injEq, Outcome.ok.injEq] at h
                    obtain ⟨hi, hctx⟩ := h
                    subst hctx
                    have hchain3 : RecordChain layers3 scopeX collected.reverse :=
                      walkChain_recordChain layers3 (layers3.length + 1) scopeX collected hwalk
                    have hcur34 : ∀ t, getCurrentId layers4 t = getCurrentId layers3 t :=
                      getCurrentId_modifyInnermost unitTid
                        (fun l =>
                          { l with stores := storeAppend kindX collected.reverse name l.stores })
                        (fun l => rfl) (fun l => rfl) layers3 layers4 hst
                    have hchain4 : RecordChain layers4 scopeX collected.reverse :=
                      RecordChain_congr layers3 layers4 hcur34 scopeX collected.reverse hchain3
                    refine ⟨collected.reverse, hchain4, ?_⟩
                    have hocc : ctxFind unitTid layers3 ≠ none := by
                      intro hnone
                      rw [← modifyInnermost_none_iff unitTid
                        (fun l =>
                          { l with stores := storeAppend kindX collected.reverse name l.stores }),
                        hst] at hnone
                      cases hnone
                    cases hl0 : ctxFind unitTid layers3 with
                    | none => exact absurd hl0 hocc
                    | some l0 =>
                      have hfself := ctxFind_modifyInnermost_self unitTid
                        (fun l =>
                          { l with stores := storeAppend kindX collected.reverse name l.stores })
                        (fun l => rfl) layers3 layers4 l0 hst hl0
                      have h43 : storeNames kindX collected.reverse layers4
                          = storeNames kindX collected.reverse layers3 ++ [name] := by
                        unfold storeNames
                        rw [hfself, hl0]
                        simp [storeAppend_lookup]
                      have h32 : storeNames kindX collected.reverse layers3
                          = storeNames kindX collected.reverse layers2 := by
                        unfold storeNames
                        rw [ctxGet_modifyInnermost kindX unitTid
                          (fun l =>
                            { l with currentId := some ⟨((alistGet kindX lp.counters).getD []).length, scopeX, name⟩ })
                          (fun l => alistGet kindX l.stores)
                          (fun l => rfl) (fun l => rfl) layers2 layers3 hm3]
                      have h20 : storeNames kindX collected.reverse layers2
                          = storeNames kindX collected.reverse ctx.layers := by
                        unfold storeNames
                        rw [ctxGet_modifyInnermost scopeX unitTid
                          (fun l =>
                            { l with counters := alistSet kindX ((alistGet kindX lp.counters).getD [] ++ [name]) l.counters })
                          (fun l => alistGet kindX l.stores)
                          (fun l => rfl) (fun l => rfl) ctx.layers layers2 hm2]
                      show storeNames kindX collected.reverse layers4
                          = storeNames kindX collected.reverse ctx.layers ++ [name]
                      rw [h43, h32, h20]

/-- Witness contexts for C6: a root layer, a parent layer of kind 1 whose
declaration record has index 0 and parent `unitTid`, and the object layer of
kind 2 being declared. -/
def ctxC6 : DefaultContext :=
  ⟨[mkLayer 0, ⟨1, [], some ⟨0, 0, "one"⟩, none, []⟩, mkLayer 2]⟩

/-- The context after the tracked declaration of "two" on `ctxC6`. -/
def ctxC6b : DefaultContext := (convert_impl 2 1 "two" ⟨true, true, []⟩ ctxC6).2

/-- Witness for C6 at a concrete input: the tracked declaration appends under
the ancestor chain of the parent record. -/
theorem claim_c6_witness :
    ∃ path, RecordChain ctxC6b.layers 1 path ∧
      storeNames 2 path ctxC6b.layers = storeNames 2 path ctxC6.layers ++ ["two"] :=
  claim_c6_persist_path 2 1 "two" [] ctxC6 ctxC6b 0 (by rfl)

/-! ### Sequenced declarations in one scope (C1) -/

theorem ctxFind_snoc (scope : TypeId) (ls : List Layer) (l : Layer) :
    ctxFind scope (ls ++ [l]) = if l.type_id = scope then some l else ctxFind scope ls := by
  unfold ctxFind
  rw [show (ls ++ [l]).reverse = l :: ls.reverse by simp]
  by_cases h : l.type_id = scope
  · rw [List.find?_cons_of_pos _ (by simp [h]), if_pos h]
  · rw [List.find?_cons_of_neg _ (by simp [h]), if_neg h]

theorem modifyInnermost_snoc (scope : TypeId) (f : Layer → Layer) (ls : List Layer)
    (l : Layer) :
    modifyInnermost scope f (ls ++ [l])
      = if l.type_id = scope then some (ls ++ [f l])
        else (modifyInnermost scope f ls).map (· ++ [l]) := by
  unfold modifyInnermost
  rw [show (ls ++ [l]).reverse = l :: ls.reverse by simp]
  rw [modifyFirstMatch]
  by_cases h : l.type_id = scope
  · rw [if_pos h, if_pos h]
    simp
  · rw [if_neg h, if_neg h]
    cases hm : modifyFirstMatch scope f ls.reverse with
    | none => simp
    | some y => simp

theorem declareOne_untracked_spec (kindX scopeX fieldTid : TypeId) (name : String)
    (ls : List Layer) (LP : Layer)
    (hLP : LP.type_id = scopeX) (hKP : kindX ≠ scopeX)
    (hfP : fieldTid ≠ scopeX) (hfK : fieldTid ≠ kindX)
    (hmem : name ∉ (alistGet kindX LP.counters).getD [])
    (hlen : ((alistGet kindX LP.counters).getD []).length ≤ u32Max) :
    declareOne kindX scopeX fieldTid false name ⟨ls ++ [LP]⟩
      = (.ok ((alistGet kindX LP.counters).getD []).length,
        ⟨ls ++ [{ LP with counters := alistSet kindX ((alistGet kindX LP.counters).getD [] ++ [name]) LP.counters }]⟩) := by
  have hfind : ctxFind scopeX ((ls ++ [LP] ++ [mkLayer kindX]) ++ [mkLayer fieldTid])
      = some LP := by
    rw [ctxFind_snoc, if_neg (by simp [mkLayer, hfP]), ctxFind_snoc,
      if_neg (by simp [mkLayer, hKP]), ctxFind_snoc, if_pos hLP]
  have hmod : modifyInnermost scopeX
      (fun l =>
        { l with counters := alistSet kindX ((alistGet kindX LP.counters).getD [] ++ [name]) l.counters })
      ((ls ++ [LP] ++ [mkLayer kindX]) ++ [mkLayer fieldTid])
      = some ((ls ++ [{ LP with counters := alistSet kindX ((alistGet kindX LP.counters).getD [] ++ [name]) LP.counters }] ++ [mkLayer kindX]) ++ [mkLayer fieldTid]) := by
    rw [modifyInnermost_snoc, if_neg (by simp [mkLayer, hfP]), modifyInnermost_snoc,
      if_neg (by simp [mkLayer, hKP]), modifyInnermost_snoc, if_pos hLP]
    rfl
  have hfk : ctxFind kindX
      ((ls ++ [{ LP with counters := alistSet kindX ((alistGet kindX LP.counters).getD [] ++ [name]) LP.counters }] ++ [mkLayer kindX]) ++ [mkLayer fieldTid])
      = some (mkLayer kindX) := by
    rw [ctxFind_snoc, if_neg (by simp [mkLayer, hfK]), ctxFind_snoc, if_pos (by simp [mkLayer])]
  have hmod3 : modifyInnermost kindX
      (fun l =>
        { l with currentId := some ⟨((alistGet kindX LP.counters).getD []).length, scopeX, name⟩ })
      ((ls ++ [{ LP with counters := alistSet kindX ((alistGet kindX LP.counters).getD [] ++ [name]) LP.counters }] ++ [mkLayer kindX]) ++ [mkLayer fieldTid])
      = some ((ls ++ [{ LP with counters := alistSet kindX ((alistGet kindX LP.counters).getD [] ++ [name]) LP.counters }] ++ [⟨kindX, [], some ⟨((alistGet kindX LP.counters).getD []).length, scopeX, name⟩, none, []⟩]) ++ [mkLayer fieldTid]) := by
    rw [modifyInnermost_snoc, if_neg (by simp [mkLayer, hfK]), modifyInnermost_snoc,
      if_pos (by simp [mkLayer])]
    rfl
  unfold declareOne fieldConvert startScope
  dsimp only
  unfold convert_impl
  simp only [if_true, hfind, hmod, Option.getD_some, if_neg hmem, Bool.false_eq_true, if_false,
    if_neg (Nat.not_lt.mpr hlen), hfk, hmod3]
  unfold endScope
  simp only [List.getLast?_concat, List.dropLast_concat, List.length_append, List.length_cons,
    List.length_nil, mkLayer]
  simp

theorem alistSet_self_of_get {κ α : Type} [DecidableEq κ] (key : κ) (v : α)
    (m : List (κ × α)) (h : alistGet key m = some v) : alistSet key v m = m := by
  induction m with
  | nil => simp [alistGet] at h
  | cons kv rest ih =>
    obtain ⟨k, w⟩ := kv
    by_cases hk : k = key
    · subst hk
      rw [alistGet, if_pos rfl] at h
      obtain rfl : w = v := Option.some.injEq _ _ ▸ h
      rw [alistSet, if_pos rfl]
    · rw [alistGet, if_neg hk] at h
      rw [alistSet, if_neg hk, ih h]

theorem declareSeq_spec (kindX scopeX fieldTid : TypeId)
    (hKP : kindX ≠ scopeX) (hfP : fieldTid ≠ scopeX) (hfK : fieldTid ≠ kindX) :
    ∀ (names : List String) (ls : List Layer) (LP : Layer) (done : List String),
      LP.type_id = scopeX →
      alistGet kindX LP.counters = some done →
      names.Nodup →
      (∀ n ∈ names, n ∉ done) →
      done.length + names.length ≤ u32Max + 1 →
      declareSeq kindX scopeX fieldTid names ⟨ls ++ [LP]⟩
        = some (List.range' done.length names.length,
            ⟨ls ++ [{ LP with counters := alistSet kindX (done ++ names) LP.counters }]⟩) := by
  intro names
  induction names with
  | nil =>
    intro ls LP done hLP hget hnd hfresh hlen
    unfold declareSeq
    rw [List.append_nil, alistSet_self_of_get kindX done LP.counters hget]
    rfl
  | cons n rest ih =>
    intro ls LP done hLP hget hnd hfresh hlen
    unfold declareSeq
    have hone := declareOne_untracked_spec kindX scopeX fieldTid n ls LP hLP hKP hfP hfK
      (by rw [hget]; exact hfresh n (by simp))
      (by rw [hget]; simp only [Option.getD_some]; simp only [List.length_cons] at hlen; omega)
    rw [hget] at hone
    simp only [Option.getD_some] at hone
    rw [hone]
    have hih := ih ls
      { LP with counters := alistSet kindX (done ++ [n]) LP.counters } (done ++ [n])
      (by simpa using hLP) (by simp [alistGet_alistSet_self])
      ((List.nodup_cons.mp hnd).2)
      (by
        intro m hm
        simp only [List.mem_append, List.mem_singleton]
        rintro (hmd | rfl)
        · exact hfresh m (by simp [hm]) hmd
        · exact (List.nodup_cons.mp hnd).1 hm)
      (by simp only [List.length_append, List.length_singleton, List.length_cons,
            List.length_nil] at hlen ⊢
          omega)
    dsimp only
    rw [hih]
    simp only [Option.map_some']
    rw [alistSet_alistSet, List.append_assoc]
    simp only [List.singleton_append, List.length_append, List.length_singleton,
      List.length_cons, List.length_nil]
    rw [List.range'_succ done.length rest.length 1]

theorem nth_last_scope_one (ls : List Layer) (l₁ l₂ : Layer) (hlen : ls.length + 2 < USIZE) :
    nth_last_scope ⟨(ls ++ [l₁]) ++ [l₂]⟩ 1 = some l₁.type_id := by
  unfold nth_last_scope usizeSub
  simp only [List.length_append, List.length_singleton]
  have h1 : (1 : Nat) % USIZE = 1 := Nat.mod_eq_of_lt (by omega)
  rw [h1]
  have e1 : (ls.length + 1 + 1 + (USIZE - 1)) % USIZE = ls.length + 1 := by
    rw [show ls.length + 1 + 1 + (USIZE - 1) = USIZE + (ls.length + 1) by omega,
      Nat.add_mod_left]
    exact Nat.mod_eq_of_lt (by omega)
  rw [e1]
  have e2 : (ls.length + 1 + (USIZE - 1)) % USIZE = ls.length := by
    rw [show ls.length + 1 + (USIZE - 1) = USIZE + ls.length by omega, Nat.add_mod_left]
    exact Nat.mod_eq_of_lt (by omega)
  rw [e2]
  rw [List.get?_append (by simp), List.get?_concat_length]
  rfl

theorem resolve_active_spec (kindX scopeX fieldTid : TypeId) (name : String)
    (imports : List TypeId) (ls : List Layer) (LP : Layer) (names : List String) (i : Nat)
    (hLP : LP.type_id = scopeX) (hfP : fieldTid ≠ scopeX)
    (hget : alistGet kindX LP.counters = some names)
    (hpos : listPos name names = some i) (hle : i ≤ u32Max)
    (hlen : ls.length + 2 < USIZE) :
    fieldConvert fieldTid kindX scopeX name ⟨false, false, imports⟩ ⟨ls ++ [LP]⟩
      = (.ok i,
        ⟨ls ++ [{ LP with importScope := some (importInserts i imports (LP.importScope.getD ⟨[]⟩)) }]⟩) := by
  have hfind : ctxFind scopeX ((ls ++ [LP]) ++ [mkLayer fieldTid]) = some LP := by
    rw [ctxFind_snoc, if_neg (by simp [mkLayer, hfP]), ctxFind_snoc, if_pos hLP]
  have hnth : nth_last_scope ⟨(ls ++ [LP]) ++ [mkLayer fieldTid]⟩ 1 = some scopeX := by
    rw [nth_last_scope_one ls LP (mkLayer fieldTid) hlen, hLP]
  have hmod : modifyInnermost scopeX
      (fun l =>
        { l with importScope := some (importInserts i imports (l.importScope.getD ⟨[]⟩)) })
      ((ls ++ [LP]) ++ [mkLayer fieldTid])
      = some ((ls ++ [{ LP with importScope := some (importInserts i imports (LP.importScope.getD ⟨[]⟩)) }]) ++ [mkLayer fieldTid]) := by
    rw [modifyInnermost_snoc, if_neg (by simp [mkLayer, hfP]), modifyInnermost_snoc,
      if_pos hLP]
    rfl
  unfold fieldConvert startScope
  dsimp only
  unfold convert_impl afterResolve
  simp only [Bool.false_eq_true, if_false, hfind, Option.some_bind, hget, hpos, hnth, hmod,
    if_neg (Nat.not_lt.mpr hle)]
  unfold endScope
  simp only [List.getLast?_concat, List.dropLast_concat, List.length_append, List.length_cons,
    List.length_nil, mkLayer]
  simp

/-- C1: declaring a sequence of N distinct names of one kind in one active
scope (each on its own object instance) returns the handles 0..N-1 in
declaration order, and subsequently resolving any of those names while the
declaring scope is still active returns that name's declaration index. -/
theorem claim_c1_sequential_handles (kindX scopeX fieldTid : TypeId) (names : List String)
    (hKP : kindX ≠ scopeX) (hfP : fieldTid ≠ scopeX) (hfK : fieldTid ≠ kindX)
    (hnd : names.Nodup) (hlen : names.length ≤ u32Max + 1)
    (i : Nat) (hi : i < names.length) :
    ∃ ctx2,
      declareSeq kindX scopeX fieldTid names (initCtx scopeX)
        = some (List.range names.length, ctx2) ∧
      (fieldConvert fieldTid kindX scopeX (names.get ⟨i, hi⟩) ⟨false, false, []⟩ ctx2).1
        = .ok i := by
  cases names with
  | nil => simp at hi
  | cons n rest =>
    have hone := declareOne_untracked_spec kindX scopeX fieldTid n [mkLayer unitTid]
      (mkLayer scopeX) rfl hKP hfP hfK (by simp [mkLayer, alistGet])
      (by simp [mkLayer, alistGet])
    simp only [mkLayer, alistGet, alistSet, Option.getD_none, List.length_nil,
      List.nil_append, List.singleton_append] at hone
    have hget1 : alistGet kindX [(kindX, [n])] = some [n] := by simp [alistGet]
    have hseq := declareSeq_spec kindX scopeX fieldTid hKP hfP hfK rest
      [⟨unitTid, [], none, none, []⟩] ⟨scopeX, [(kindX, [n])], none, none, []⟩ [n]
      rfl hget1 ((List.nodup_cons.mp hnd).2)
      (by
        intro m hm
        simp only [List.mem_singleton]
        rintro rfl
        exact (List.nodup_cons.mp hnd).1 hm)
      (by simp only [List.length_cons] at hlen; simp; omega)
    simp only [List.singleton_append, List.length_singleton, alistSet] at hseq
    unfold declareSeq
    rw [show initCtx scopeX
        = ⟨[⟨unitTid, [], none, none, []⟩, ⟨scopeX, [], none, none, []⟩]⟩ from rfl]
    rw [hone]
    dsimp only
    rw [hseq]
    simp only [Option.map_some']
    refine ⟨⟨[⟨unitTid, [], none, none, []⟩,
      ⟨scopeX, [(kindX, n :: rest)], none, none, []⟩]⟩, ?_, ?_⟩
    · rw [List.length_cons, List.range_eq_range', List.range'_succ 0 rest.length 1]
      simp
    · have hres := resolve_active_spec kindX scopeX fieldTid ((n :: rest).get ⟨i, hi⟩) []
        [⟨unitTid, [], none, none, []⟩] ⟨scopeX, [(kindX, n :: rest)], none, none, []⟩
        (n :: rest) i rfl hfP (by simp [alistGet])
        (listPos_get_of_nodup (n :: rest) i hi hnd)
        (by simp only [List.length_cons] at hlen hi; omega) (by norm_num [USIZE])
      simp only [List.singleton_append] at hres
      rw [hres]

/-- Witness for C1 at a concrete input: declaring ["a", "b"] yields handles
[0, 1] and resolving "b" (index 1) returns handle 1. -/
theorem claim_c1_witness :
    ∃ ctx2,
      declareSeq 2 1 3 ["a", "b"] (initCtx 1) = some (List.range 2, ctx2) ∧
      (fieldConvert 3 2 1 (["a", "b"].get ⟨1, by decide⟩) ⟨false, false, []⟩ ctx2).1
        = .ok 1 :=
  claim_c1_sequential_handles 2 1 3 ["a", "b"] (by decide) (by decide) (by decide)
    (by decide) (by decide) 1 (by decide)

/-! ### The cross-scope import scenario (C2) -/

theorem walkChain_step (layers : List Layer) (fuel : Nat) (t : TypeId) (r : CurrentId)
    (h : getCurrentId layers t = some r) :
    walkChain layers (fuel + 1) t
      = (walkChain layers fuel r.parent).map (fun rest => r.id :: rest) := by
  rw [walkChain, h]

theorem walkChain_stop (layers : List Layer) (fuel : Nat) (t : TypeId)
    (h : getCurrentId layers t = none) : walkChain layers fuel t = some [] := by
  cases fuel <;> rw [walkChain, h]

/-- A tracked declaration of kind 2 (scope kind 1, field tag 5) on the stack
[root, parent], where the parent layer of kind 1 carries a declaration record
whose parent is the root kind: the name is appended both to the parent's
counter and to the root's global store under the path [record index]. -/
theorem declareOneTracked_spec (name : String) (R L : Layer) (cur : CurrentId)
    (hR : R.type_id = 0) (hRc : R.currentId = none)
    (hL : L.type_id = 1) (hLc : L.currentId = some cur) (hcp : cur.parent = 0)
    (hmem : name ∉ (alistGet 2 L.counters).getD [])
    (hlen : ((alistGet 2 L.counters).getD []).length ≤ u32Max) :
    declareOne 2 1 5 true name ⟨[R, L]⟩
      = (.ok ((alistGet 2 L.counters).getD []).length,
        ⟨[{ R with stores := storeAppend 2 [cur.id] name R.stores },
          { L with counters := alistSet 2 ((alistGet 2 L.counters).getD [] ++ [name]) L.counters }]⟩) := by
  have hfind : ctxFind 1 (([R, L] ++ [mkLayer 2]) ++ [mkLayer 5]) = some L := by
    unfold ctxFind
    have hrv : (([R, L] ++ [mkLayer 2]) ++ [mkLayer 5]).reverse
        = ([mkLayer 5, mkLayer 2, L, R] : List Layer) := by simp
    rw [hrv, List.find?_cons_of_neg _ (by simp [mkLayer]),
      List.find?_cons_of_neg _ (by simp [mkLayer]),
      List.find?_cons_of_pos _ (by simp [hL])]
  have hmod : modifyInnermost 1
      (fun l =>
        { l with counters := alistSet 2 ((alistGet 2 L.counters).getD [] ++ [name]) l.counters })
      (([R, L] ++ [mkLayer 2]) ++ [mkLayer 5])
      = some (([R, { L with counters := alistSet 2 ((alistGet 2 L.counters).getD [] ++ [name]) L.counters }] ++ [mkLayer 2]) ++ [mkLayer 5]) := by
    unfold modifyInnermost
    have hrv : (([R, L] ++ [mkLayer 2]) ++ [mkLayer 5]).reverse
        = ([mkLayer 5, mkLayer 2, L, R] : List Layer) := by simp
    rw [hrv, modifyFirstMatch, if_neg (by simp [mkLayer])]
    rw [modifyFirstMatch, if_neg (by simp [mkLayer])]
    rw [modifyFirstMatch, if_pos hL]
    simp
  have hfk : ctxFind 2
      (([R, { L with counters := alistSet 2 ((alistGet 2 L.counters).getD [] ++ [name]) L.counters }] ++ [mkLayer 2]) ++ [mkLayer 5])
      = some (mkLayer 2) := by
    unfold ctxFind
    have hrv : (([R, { L with counters := alistSet 2 ((alistGet 2 L.counters).getD [] ++ [name]) L.counters }] ++ [mkLayer 2]) ++ [mkLayer 5]).reverse
        = ([mkLayer 5, mkLayer 2, { L with counters := alistSet 2 ((alistGet 2 L.counters).getD [] ++ [name]) L.counters }, R] : List Layer) := by simp
    rw [hrv, List.find?_cons_of_neg _ (by simp [mkLayer]),
      List.find?_cons_of_pos _ (by simp [mkLayer])]
  have hmod3 : modifyInnermost 2
      (fun l =>
        { l with currentId := some ⟨((alistGet 2 L.counters).getD []).length, 1, name⟩ })
      (([R, { L with counters := alistSet 2 ((alistGet 2 L.counters).getD [] ++ [name]) L.counters }] ++ [mkLayer 2]) ++ [mkLayer 5])
      = some (([R, { L with counters := alistSet 2 ((alistGet 2 L.counters).getD [] ++ [name]) L.counters }] ++ [(⟨2, [], some ⟨((alistGet 2 L.counters).getD []).length, 1, name⟩, none, []⟩ : Layer)]) ++ [mkLayer 5]) := by
    unfold modifyInnermost
    have hrv : (([R, { L with counters := alistSet 2 ((alistGet 2 L.counters).getD [] ++ [name]) L.counters }] ++ [mkLayer 2]) ++ [mkLayer 5]).reverse
        = ([mkLayer 5, mkLayer 2, { L with counters := alistSet 2 ((alistGet 2 L.counters).getD [] ++ [name]) L.counters }, R] : List Layer) := by simp
    rw [hrv, modifyFirstMatch, if_neg (by simp [mkLayer])]
    rw [modifyFirstMatch, if_pos (by simp [mkLayer])]
    simp [mkLayer]
  have hcur1 : getCurrentId (([R, { L with counters := alistSet 2 ((alistGet 2 L.counters).getD [] ++ [name]) L.counters }] ++ [(⟨2, [], some ⟨((alistGet 2 L.counters).getD []).length, 1, name⟩, none, []⟩ : Layer)]) ++ [mkLayer 5]) 1 = some cur := by
    unfold getCurrentId ctxFind
    have hrv : (([R, { L with counters := alistSet 2 ((alistGet 2 L.counters).getD [] ++ [name]) L.counters }] ++ [(⟨2, [], some ⟨((alistGet 2 L.counters).getD []).length, 1, name⟩, none, []⟩ : Layer)]) ++ [mkLayer 5]).reverse
        = ([mkLayer 5, ⟨2, [], some ⟨((alistGet 2 L.counters).getD []).length, 1, name⟩, none, []⟩, { L with counters := alistSet 2 ((alistGet 2 L.counters).getD [] ++ [name]) L.counters }, R] : List Layer) := by simp
    rw [hrv, List.find?_cons_of_neg _ (by simp [mkLayer]),
      List.find?_cons_of_neg _ (by simp),
      List.find?_cons_of_pos _ (by simp [hL])]
    simp [hLc]
  have hcur0 : getCurrentId (([R, { L with counters := alistSet 2 ((alistGet 2 L.counters).getD [] ++ [name]) L.counters }] ++ [(⟨2, [], some ⟨((alistGet 2 L.counters).getD []).length, 1, name⟩, none, []⟩ : Layer)]) ++ [mkLayer 5]) 0 = none := by
    unfold getCurrentId ctxFind
    have hrv : (([R, { L with counters := alistSet 2 ((alistGet 2 L.counters).getD [] ++ [name]) L.counters }] ++ [(⟨2, [], some ⟨((alistGet 2 L.counters).getD []).length, 1, name⟩, none, []⟩ : Layer)]) ++ [mkLayer 5]).reverse
        = ([mkLayer 5, ⟨2, [], some ⟨((alistGet 2 L.counters).getD []).length, 1, name⟩, none, []⟩, { L with counters := alistSet 2 ((alistGet 2 L.counters).getD [] ++ [name]) L.counters }, R] : List Layer) := by simp
    rw [hrv, List.find?_cons_of_neg _ (by simp [mkLayer]),
      List.find?_cons_of_neg _ (by simp),
      List.find?_cons_of_neg _ (by simp [hL]),
      List.find?_cons_of_pos _ (by simp [hR])]
    simp [hRc]
  have hwalk : walkChain (([R, { L with counters := alistSet 2 ((alistGet 2 L.counters).getD [] ++ [name]) L.counters }] ++ [(⟨2, [], some ⟨((alistGet 2 L.counters).getD []).length, 1, name⟩, none, []⟩ : Layer)]) ++ [mkLayer 5]) ((([R, { L with counters := alistSet 2 ((alistGet 2 L.counters).getD [] ++ [name]) L.counters }] ++ [(⟨2, [], some ⟨((alistGet 2 L.counters).getD []).length, 1, name⟩, none, []⟩ : Layer)]) ++ [mkLayer 5]).length + 1) 1 = some [cur.id] := by
    rw [walkChain_step _ _ 1 cur hcur1, hcp, walkChain_stop _ _ 0 hcur0]
    rfl
  have hmod4 : modifyInnermost unitTid
      (fun l => { l with stores := storeAppend 2 [cur.id].reverse name l.stores })
      (([R, { L with counters := alistSet 2 ((alistGet 2 L.counters).getD [] ++ [name]) L.counters }] ++ [(⟨2, [], some ⟨((alistGet 2 L.counters).getD []).length, 1, name⟩, none, []⟩ : Layer)]) ++ [mkLayer 5])
      = some (([{ R with stores := storeAppend 2 [cur.id].reverse name R.stores }, { L with counters := alistSet 2 ((alistGet 2 L.counters).getD [] ++ [name]) L.counters }] ++ [(⟨2, [], some ⟨((alistGet 2 L.counters).getD []).length, 1, name⟩, none, []⟩ : Layer)]) ++ [mkLayer 5]) := by
    unfold modifyInnermost
    have hrv : (([R, { L with counters := alistSet 2 ((alistGet 2 L.counters).getD [] ++ [name]) L.counters }] ++ [(⟨2, [], some ⟨((alistGet 2 L.counters).getD []).length, 1, name⟩, none, []⟩ : Layer)]) ++ [mkLayer 5]).reverse
        = ([mkLayer 5, ⟨2, [], some ⟨((alistGet 2 L.counters).getD []).length, 1, name⟩, none, []⟩, { L with counters := alistSet 2 ((alistGet 2 L.counters).getD [] ++ [name]) L.counters }, R] : List Layer) := by simp
    rw [hrv, modifyFirstMatch, if_neg (by simp [mkLayer, unitTid])]
    rw [modifyFirstMatch, if_neg (by simp [unitTid])]
    rw [modifyFirstMatch, if_neg (by simp [hL, unitTid])]
    rw [modifyFirstMatch, if_pos (by simp [hR, unitTid])]
    simp
  unfold declareOne fieldConvert startScope
  dsimp only
  unfold convert_impl
  simp only [if_true, hfind, hmod, Option.getD_some, if_neg hmem,
    if_neg (Nat.not_lt.mpr hlen), hfk, hmod3, hwalk, hmod4]
  unfold endScope
  simp only [List.getLast?_concat, List.dropLast_concat, List.length_append, List.length_cons,
    List.length_nil, mkLayer]
  simp

/-- Convert a list of Qux-like children (kind 2, scope kind 1, field tag 5,
tracked), each its own object instance, stopping at the first failure. -/
def quxChildren : List String → DefaultContext → Option DefaultContext
  | [], ctx => some ctx
  | n :: ns, ctx =>
    match declareOne 2 1 5 true n ctx with
    | (.ok _, ctx2) => quxChildren ns ctx2
    | _ => none

/-- Iterated `storeAppend` of a list of names under one path. -/
def storeAppendMany (k : TypeId) (p : List Nat) (names : List String)
    (stores : List (TypeId × GlobalIdStore)) : List (TypeId × GlobalIdStore) :=
  names.foldl (fun s n => storeAppend k p n s) stores

/-- Scenario phase 1: convert one Bar object (kind 1, scope root): push its
layer, convert its declaring id field (field tag 4), convert the tracked Qux
children, pop the layer. -/
def barPhase (barName : String) (quxNames : List String) : Option DefaultContext :=
  let s := startScope 1 ⟨[mkLayer unitTid]⟩
  match fieldConvert 4 1 unitTid barName ⟨true, false, []⟩ s.2 with
  | (.ok _, c1) =>
    match quxChildren quxNames c1 with
    | some c2 => endScope s.1 c2
    | none => none
  | _ => none

/-- The full cross-scope scenario of C2: convert a Bar with tracked Qux
children, close Bar's scope, then open a sibling Foo (kind 3) and resolve the
Bar name with kind 2 in its import list.  The result is the context in which
Foo's remaining fields convert. -/
def scenarioC2 (barName : String) (quxNames : List String) : Option DefaultContext :=
  match barPhase barName quxNames with
  | none => none
  | some c =>
    let s := startScope 3 c
    match fieldConvert 4 1 unitTid barName ⟨false, false, [2]⟩ s.2 with
    | (.ok _, c2) => some c2
    | _ => none

theorem storeAppendMany_lookup (k : TypeId) (p : List Nat) :
    ∀ (ns : List String) (s : List (TypeId × GlobalIdStore)),
      (alistGet k (storeAppendMany k p ns s)).bind (fun st => alistGet p st.ids)
        = if ns = [] then (alistGet k s).bind (fun st => alistGet p st.ids)
          else some ((((alistGet k s).bind (fun st => alistGet p st.ids)).getD []) ++ ns) := by
  intro ns
  induction ns with
  | nil => intro s; simp [storeAppendMany]
  | cons n rest ih =>
    intro s
    rw [show storeAppendMany k p (n :: rest) s
        = storeAppendMany k p rest (storeAppend k p n s) from rfl]
    rw [ih (storeAppend k p n s)]
    by_cases hr : rest = []
    · subst hr
      simp [storeAppend_lookup]
    · rw [if_neg hr, if_neg (by simp)]
      rw [storeAppend_lookup]
      simp

theorem quxChildren_spec (names : List String) :
    ∀ (R L : Layer) (cur : CurrentId) (done : List String),
      R.type_id = 0 → R.currentId = none →
      L.type_id = 1 → L.currentId = some cur → cur.parent = 0 →
      alistGet 2 L.counters = some done →
      names.Nodup → (∀ n ∈ names, n ∉ done) →
      done.length + names.length ≤ u32Max + 1 →
      quxChildren names ⟨[R, L]⟩
        = some ⟨[{ R with stores := storeAppendMany 2 [cur.id] names R.stores },
            { L with counters := alistSet 2 (done ++ names) L.counters }]⟩ := by
  induction names with
  | nil =>
    intro R L cur done hR hRc hL hLc hcp hget hnd hfresh hlen
    unfold quxChildren
    rw [show storeAppendMany 2 [cur.id] [] R.stores = R.stores from rfl]
    rw [List.append_nil, alistSet_self_of_get 2 done L.counters hget]
  | cons n rest ih =>
    intro R L cur done hR hRc hL hLc hcp hget hnd hfresh hlen
    unfold quxChildren
    have hone := declareOneTracked_spec n R L cur hR hRc hL hLc hcp
      (by rw [hget]; exact hfresh n (by simp))
      (by rw [hget]; simp only [Option.getD_some]
          simp only [List.length_cons] at hlen; omega)
    rw [hget] at hone
    simp only [Option.getD_some] at hone
    rw [hone]
    dsimp only
    have hih := ih { R with stores := storeAppend 2 [cur.id] n R.stores }
      { L with counters := alistSet 2 (done ++ [n]) L.counters } cur (done ++ [n])
      hR hRc hL hLc hcp (by simp [alistGet_alistSet_self])
      ((List.nodup_cons.mp hnd).2)
      (by
        intro m hm
        simp only [List.mem_append, List.mem_singleton]
        rintro (hmd | rfl)
        · exact hfresh m (by simp [hm]) hmd
        · exact (List.nodup_cons.mp hnd).1 hm)
      (by simp only [List.length_append, List.length_singleton, List.length_cons,
            List.length_nil] at hlen ⊢
          omega)
    rw [hih]
    rw [show storeAppendMany 2 [cur.id] rest (storeAppend 2 [cur.id] n R.stores)
        = storeAppendMany 2 [cur.id] (n :: rest) R.stores from rfl]
    rw [show ({ L with counters := alistSet 2 (done ++ [n]) L.counters } : Layer).counters
        = alistSet 2 (done ++ [n]) L.counters from rfl]
    rw [alistSet_alistSet, List.append_assoc]
    rfl

theorem fieldConvert_new_bar_spec (barName : String) :
    fieldConvert 4 1 unitTid barName ⟨true, false, []⟩ ⟨[mkLayer unitTid] ++ [mkLayer 1]⟩
      = (.ok 0, ⟨[⟨unitTid, [(1, [barName])], none, none, []⟩,
          ⟨1, [], some ⟨0, unitTid, barName⟩, none, []⟩]⟩) := by
  rfl


theorem resolve_counter_gen_spec (fieldTid kindX scopeX : TypeId) (name : String)
    (imports : List TypeId) (ls : List Layer) (LP : Layer) (names : List String) (i : Nat)
    (hfP : fieldTid ≠ LP.type_id) (hfS : fieldTid ≠ scopeX)
    (hcnt : (ctxFind scopeX (ls ++ [LP])).bind (fun l => alistGet kindX l.counters)
      = some names)
    (hpos : listPos name names = some i) (hle : i ≤ u32Max)
    (hlen : ls.length + 2 < USIZE) :
    fieldConvert fieldTid kindX scopeX name ⟨false, false, imports⟩ ⟨ls ++ [LP]⟩
      = (.ok i,
        ⟨ls ++ [{ LP with importScope := some (importInserts i imports (LP.importScope.getD ⟨[]⟩)) }]⟩) := by
  have hcnt2 : (ctxFind scopeX ((ls ++ [LP]) ++ [mkLayer fieldTid])).bind
      (fun l => alistGet kindX l.counters) = some names := by
    rw [ctxFind_snoc, if_neg (by simpa [mkLayer] using hfS)]
    exact hcnt
  have hnth : nth_last_scope ⟨(ls ++ [LP]) ++ [mkLayer fieldTid]⟩ 1 = some LP.type_id :=
    nth_last_scope_one ls LP (mkLayer fieldTid) hlen
  have hmod : modifyInnermost LP.type_id
      (fun l =>
        { l with importScope := some (importInserts i imports (l.importScope.getD ⟨[]⟩)) })
      ((ls ++ [LP]) ++ [mkLayer fieldTid])
      = some ((ls ++ [{ LP with importScope := some (importInserts i imports (LP.importScope.getD ⟨[]⟩)) }]) ++ [mkLayer fieldTid]) := by
    rw [modifyInnermost_snoc, if_neg (by simpa [mkLayer] using hfP), modifyInnermost_snoc,
      if_pos rfl]
    rfl
  unfold fieldConvert startScope
  dsimp only
  unfold convert_impl afterResolve
  simp only [Bool.false_eq_true, if_false, hcnt2, hpos, hnth, hmod,
    if_neg (Nat.not_lt.mpr hle)]
  unfold endScope
  simp only [List.getLast?_concat, List.dropLast_concat, List.length_append, List.length_cons,
    List.length_nil, mkLayer]
  simp

theorem resolve_import_gen_spec (fieldTid kindX scopeX : TypeId) (name : String)
    (imports : List TypeId) (ls : List Layer) (LP : Layer)
    (path : List Nat) (st : GlobalIdStore) (ids : List String) (i : Nat)
    (hfP : fieldTid ≠ LP.type_id) (hfS : fieldTid ≠ scopeX) (hf0 : fieldTid ≠ unitTid)
    (hnone : (ctxFind scopeX (ls ++ [LP])).bind (fun l => alistGet kindX l.counters) = none)
    (himp : findImportPath kindX (ls ++ [LP]) = some path)
    (hst : (ctxFind unitTid (ls ++ [LP])).bind (fun l => alistGet kindX l.stores) = some st)
    (hids : alistGet path st.ids = some ids)
    (hpos : listPos name ids = some i) (hle : i ≤ u32Max)
    (hlen : ls.length + 2 < USIZE) :
    fieldConvert fieldTid kindX scopeX name ⟨false, false, imports⟩ ⟨ls ++ [LP]⟩
      = (.ok i,
        ⟨ls ++ [{ LP with importScope := some (importInserts i imports (LP.importScope.getD ⟨[]⟩)) }]⟩) := by
  have hnone2 : (ctxFind scopeX ((ls ++ [LP]) ++ [mkLayer fieldTid])).bind
      (fun l => alistGet kindX l.counters) = none := by
    rw [ctxFind_snoc, if_neg (by simpa [mkLayer] using hfS)]
    exact hnone
  have himp2 : findImportPath kindX ((ls ++ [LP]) ++ [mkLayer fieldTid]) = some path := by
    unfold findImportPath at himp ⊢
    rw [show ((ls ++ [LP]) ++ [mkLayer fieldTid]).reverse
        = mkLayer fieldTid :: (ls ++ [LP]).reverse by simp]
    rw [List.filterMap_cons]
    exact himp
  have hst2 : (ctxFind unitTid ((ls ++ [LP]) ++ [mkLayer fieldTid])).bind
      (fun l => alistGet kindX l.stores) = some st := by
    rw [ctxFind_snoc, if_neg (by simpa [mkLayer] using hf0)]
    exact hst
  have hnth : nth_last_scope ⟨(ls ++ [LP]) ++ [mkLayer fieldTid]⟩ 1 = some LP.type_id :=
    nth_last_scope_one ls LP (mkLayer fieldTid) hlen
  have hmod : modifyInnermost LP.type_id
      (fun l =>
        { l with importScope := some (importInserts i imports (l.importScope.getD ⟨[]⟩)) })
      ((ls ++ [LP]) ++ [mkLayer fieldTid])
      = some ((ls ++ [{ LP with importScope := some (importInserts i imports (LP.importScope.getD ⟨[]⟩)) }]) ++ [mkLayer fieldTid]) := by
    rw [modifyInnermost_snoc, if_neg (by simpa [mkLayer] using hfP), modifyInnermost_snoc,
      if_pos rfl]
    rfl
  unfold fieldConvert startScope
  dsimp only
  unfold convert_impl afterResolve
  simp only [Bool.false_eq_true, if_false, hnone2, himp2, hst2, hids, hpos, hnth, hmod,
    if_neg (Nat.not_lt.mpr hle)]
  unfold endScope
  simp only [List.getLast?_concat, List.dropLast_concat, List.length_append, List.length_cons,
    List.length_nil, mkLayer]
  simp

theorem scenarioC2_spec (barName : String) (quxNames : List String)
    (hnd : quxNames.Nodup) (hlen : quxNames.length ≤ u32Max + 1) :
    scenarioC2 barName quxNames
      = some ⟨[⟨unitTid, [(1, [barName])], none, none, storeAppendMany 2 [0] quxNames []⟩,
          ⟨3, [], none, some ⟨[(2, [0])]⟩, []⟩]⟩ := by
  have hbar : barPhase barName quxNames
      = some ⟨[⟨unitTid, [(1, [barName])], none, none,
          storeAppendMany 2 [0] quxNames []⟩]⟩ := by
    unfold barPhase startScope
    dsimp only
    rw [fieldConvert_new_bar_spec]
    dsimp only
    cases quxNames with
    | nil =>
      unfold quxChildren endScope
      simp [storeAppendMany]
    | cons qn rest =>
      have hone := declareOneTracked_spec qn
        ⟨unitTid, [(1, [barName])], none, none, []⟩
        ⟨1, [], some ⟨0, unitTid, barName⟩, none, []⟩
        ⟨0, unitTid, barName⟩ rfl rfl rfl rfl rfl
        (by simp [alistGet]) (by simp [alistGet])
      simp only [alistGet, Option.getD_none, List.length_nil, List.nil_append] at hone
      unfold quxChildren
      rw [hone]
      dsimp only
      have hqux := quxChildren_spec rest
        ⟨unitTid, [(1, [barName])], none, none, storeAppend 2 [0] qn []⟩
        ⟨1, alistSet 2 [qn] [], some ⟨0, unitTid, barName⟩, none, []⟩
        ⟨0, unitTid, barName⟩ [qn] rfl rfl rfl rfl rfl
        (by simp [alistSet, alistGet])
        ((List.nodup_cons.mp hnd).2)
        (by
          intro m hm
          simp only [List.mem_singleton]
          rintro rfl
          exact (List.nodup_cons.mp hnd).1 hm)
        (by simp only [List.length_cons] at hlen; simp; omega)
      rw [hqux]
      dsimp only
      unfold endScope
      simp only [List.getLast?_cons_cons, List.getLast?_singleton, List.length_cons,
        List.length_nil]
      rw [if_pos (by constructor <;> trivial)]
      rw [show storeAppendMany 2 [0] rest (storeAppend 2 [0] qn [])
          = storeAppendMany 2 [0] (qn :: rest) [] from rfl]
      rfl
  unfold scenarioC2
  rw [hbar]
  unfold startScope
  dsimp only
  have hcnt : (ctxFind unitTid
      ([(⟨unitTid, [(1, [barName])], none, none, storeAppendMany 2 [0] quxNames []⟩ : Layer)]
        ++ [mkLayer 3])).bind (fun l => alistGet 1 l.counters) = some [barName] := by
    rw [ctxFind_snoc, if_neg (by norm_num [mkLayer, unitTid])]
    unfold ctxFind
    rw [show ([(⟨unitTid, [(1, [barName])], none, none, storeAppendMany 2 [0] quxNames []⟩ : Layer)] : List Layer).reverse
        = [(⟨unitTid, [(1, [barName])], none, none, storeAppendMany 2 [0] quxNames []⟩ : Layer)] by simp]
    rw [List.find?_cons_of_pos _ (by simp [unitTid])]
    simp [alistGet]
  have hres := resolve_counter_gen_spec 4 1 unitTid barName [2]
    [(⟨unitTid, [(1, [barName])], none, none, storeAppendMany 2 [0] quxNames []⟩ : Layer)]
    (mkLayer 3) [barName] 0
    (by norm_num [mkLayer]) (by norm_num [unitTid]) hcnt (by simp [listPos])
    (by norm_num [u32Max]) (by norm_num [USIZE])
  rw [hres]
  dsimp only
  rfl

/-- C2: Qux names (kind 2) declared with `track = true` under a Bar scope
that has since been popped remain resolvable from a sibling Foo scope: after
the Bar name is resolved with kind 2 in its import list (writing the Import
Table entry into Foo's layer), resolving any of the Qux names finds that
entry and returns the name's position in the persisted registry entry at the
recorded path. -/
theorem claim_c2_cross_scope (barName : String) (quxNames : List String)
    (hnd : quxNames.Nodup) (hlen : quxNames.length ≤ u32Max + 1)
    (i : Nat) (hi : i < quxNames.length) :
    ∃ c, scenarioC2 barName quxNames = some c ∧
      (fieldConvert 5 2 1 (quxNames.get ⟨i, hi⟩) ⟨false, false, []⟩ c).1 = .ok i := by
  refine ⟨⟨[⟨unitTid, [(1, [barName])], none, none, storeAppendMany 2 [0] quxNames []⟩,
    ⟨3, [], none, some ⟨[(2, [0])]⟩, []⟩]⟩, scenarioC2_spec barName quxNames hnd hlen, ?_⟩
  have hlook := storeAppendMany_lookup 2 [0] quxNames []
  rw [if_neg (by intro h; rw [h] at hi; simp at hi)] at hlook
  simp only [alistGet, Option.none_bind, Option.getD_none, List.nil_append] at hlook
  obtain ⟨st, hst0, hids0⟩ := Option.bind_eq_some.mp hlook
  have hnone : (ctxFind 1
      ([(⟨unitTid, [(1, [barName])], none, none, storeAppendMany 2 [0] quxNames []⟩ : Layer)]
        ++ [(⟨3, [], none, some ⟨[(2, [0])]⟩, []⟩ : Layer)])).bind
      (fun l => alistGet 2 l.counters) = none := by
    rw [ctxFind_snoc, if_neg (by norm_num)]
    unfold ctxFind
    rw [show ([(⟨unitTid, [(1, [barName])], none, none, storeAppendMany 2 [0] quxNames []⟩ : Layer)] : List Layer).reverse
        = [(⟨unitTid, [(1, [barName])], none, none, storeAppendMany 2 [0] quxNames []⟩ : Layer)] by simp]
    rw [List.find?_cons_of_neg _ (by simp [unitTid]), List.find?_nil]
    rfl
  have himp : findImportPath 2
      ([(⟨unitTid, [(1, [barName])], none, none, storeAppendMany 2 [0] quxNames []⟩ : Layer)]
        ++ [(⟨3, [], none, some ⟨[(2, [0])]⟩, []⟩ : Layer)]) = some [0] := by
    simp [findImportPath, alistGet]
  have hst : (ctxFind unitTid
      ([(⟨unitTid, [(1, [barName])], none, none, storeAppendMany 2 [0] quxNames []⟩ : Layer)]
        ++ [(⟨3, [], none, some ⟨[(2, [0])]⟩, []⟩ : Layer)])).bind
      (fun l => alistGet 2 l.stores) = some st := by
    rw [ctxFind_snoc, if_neg (by norm_num [unitTid])]
    unfold ctxFind
    rw [show ([(⟨unitTid, [(1, [barName])], none, none, storeAppendMany 2 [0] quxNames []⟩ : Layer)] : List Layer).reverse
        = [(⟨unitTid, [(1, [barName])], none, none, storeAppendMany 2 [0] quxNames []⟩ : Layer)] by simp]
    rw [List.find?_cons_of_pos _ (by simp [unitTid])]
    simpa using hst0
  have hres := resolve_import_gen_spec 5 2 1 (quxNames.get ⟨i, hi⟩) []
    [(⟨unitTid, [(1, [barName])], none, none, storeAppendMany 2 [0] quxNames []⟩ : Layer)]
    (⟨3, [], none, some ⟨[(2, [0])]⟩, []⟩ : Layer) [0] st quxNames i
    (by norm_num) (by norm_num) (by norm_num [unitTid])
    hnone himp hst hids0 (listPos_get_of_nodup quxNames i hi hnd)
    (by omega) (by norm_num [USIZE])
  show (fieldConvert 5 2 1 (quxNames.get ⟨i, hi⟩) ⟨false, false, []⟩
    ⟨[(⟨unitTid, [(1, [barName])], none, none, storeAppendMany 2 [0] quxNames []⟩ : Layer)]
      ++ [(⟨3, [], none, some ⟨[(2, [0])]⟩, []⟩ : Layer)]⟩).1 = .ok i
  rw [hres]

/-- Witness for C2 at a concrete input: two tracked Qux names under a Bar,
the Bar scope popped, and the second Qux name resolved to handle 1 through
the import written by resolving the Bar name. -/
theorem claim_c2_witness :
    ∃ c, scenarioC2 "b" ["x", "y"] = some c ∧
      (fieldConvert 5 2 1 (["x", "y"].get ⟨1, by decide⟩) ⟨false, false, []⟩ c).1
        = .ok 1 :=
  claim_c2_cross_scope "b" ["x", "y"] (by decide) (by decide) 1 (by decide)
